import Mathlib

/-!
Verification of the UI-Scraper crawl/extract/persist pipeline.

This file gives a shallow embedding, in Lean, of the parts of the code that
the specification claims talk about:

  - the JSON-like dictionaries that flow through the pipeline
    (Python dicts with string keys, lists, numbers, strings, booleans, None),
  - the merge-on-write persistence layer
    (src/utils/mongodb_client.py: save_businesses, _merge_business_data),
  - the LLM extraction service
    (src/scrapers/llm_data_extraction.py: the standardized error envelope,
    pydantic schema validation, per-item method fallback, batch scheduling),
  - the content normalizer
    (src/utils/helpers.py: parse_json_scripts, get_llm_friendly_content),
  - the job API and job runner
    (src/backend/app/api/jobs.py: cancel_job;
    src/backend/app/services/job_runner.py: the pipeline branch).

External effects (Mongo, the LLM, the event loop, json.loads on arbitrary
strings) are modelled by explicit state passing and oracle parameters, so
every definition is executable.
-/

namespace UIScraper

/-! ## JSON-like values (Python dict / Mongo document model) -/

/-- A JSON-like value: the payloads that flow through the pipeline are
Python dicts, lists, strings, numbers, booleans and None.  Insertion order
of object fields is significant, as it is for Python dicts. -/
inductive JValue where
  | null
  | bool (b : Bool)
  | num (n : Int)
  | str (s : String)
  | arr (items : List JValue)
  | obj (fields : List (String × JValue))
deriving Repr, Inhabited

mutual

/-- Structural (Boolean) equality of JSON-like values; this is the equality
Python and Mongo use when comparing field values. -/
def JValue.beq : JValue → JValue → Bool
  | .null, .null => true
  | .bool a, .bool b => a == b
  | .num a, .num b => a == b
  | .str a, .str b => a == b
  | .arr as, .arr bs => JValue.beqItems as bs
  | .obj fs, .obj gs => JValue.beqFields fs gs
  | _, _ => false

def JValue.beqItems : List JValue → List JValue → Bool
  | [], [] => true
  | a :: as, b :: bs => JValue.beq a b && JValue.beqItems as bs
  | _, _ => false

def JValue.beqFields : List (String × JValue) → List (String × JValue) → Bool
  | [], [] => true
  | (ka, a) :: fs, (kb, b) :: gs =>
      ka == kb && JValue.beq a b && JValue.beqFields fs gs
  | _, _ => false

end

/-- A Python dict with string keys (an association list in key insertion
order; Python dicts never hold duplicate keys). -/
abbrev Dict := List (String × JValue)

/-- First binding of key `k`, i.e. Python `d[k]` when present. -/
def getKey : Dict → String → Option JValue
  | [], _ => none
  | (k', v) :: rest, k => if k' = k then some v else getKey rest k

/-- Python `d[k] = v`: replace the value in place if the key exists,
otherwise append the new binding at the end. -/
def setKey : Dict → String → JValue → Dict
  | [], k, v => [(k, v)]
  | (k', v') :: rest, k, v =>
      if k' = k then (k, v) :: rest else (k', v') :: setKey rest k v

/-- Python `d.get(k)` (default `None`). -/
def pyGet (d : Dict) (k : String) : JValue :=
  (getKey d k).getD JValue.null

/-- Python `d.get(k, dflt)`. -/
def pyGetD (d : Dict) (k : String) (dflt : JValue) : JValue :=
  (getKey d k).getD dflt

/-- Python truthiness of a value: `None`, `False`, `0`, `""`, `[]` and
an empty dict are falsy, everything else is truthy. -/
def truthy : JValue → Bool
  | .null => false
  | .bool b => b
  | .num n => n != 0
  | .str s => s ≠ ""
  | .arr items => !items.isEmpty
  | .obj fields => !fields.isEmpty

/-- Python dict union in brace-splat form (existing keys keep their position
but take the right-hand value; new keys are appended in right-hand order). -/
def objUnion (xs ys : Dict) : Dict :=
  ys.foldl (fun acc kv => setKey acc kv.1 kv.2) xs

/-- Keys of a dict, in order. -/
def dictKeys (d : Dict) : List String := d.map Prod.fst

/-! ## Persistence layer: src/utils/mongodb_client.py

`MongoDBClient.save_businesses` walks the input entities one by one; for
each entity it stamps `updated_at`/`source_type`, looks an existing record
up by `(name, address)` (both truthy) else by `website` (truthy), and then
either merges into the found record (`update_one` with `$set: merged`) or
inserts a new record with `created_at`.

The `businesses` collection is modelled as a list of documents in insertion
order; a document's position plays the role of its `_id`, and `find_one` is
the first match in that order.  `datetime.utcnow()` is modelled by an
explicit `now` argument.  Python raising `TypeError` (brace-splat merge of
a non-dict `hours`/`social_media` value) is modelled by `none`. -/

/-- One iteration of the `for key, value in new.items()` loop of
`MongoDBClient._merge_business_data` (mongodb_client.py lines 77-85),
acting on the accumulated `merged` dict.  The conditions read the original
`existing` dict, exactly as the source does. -/
def mergeStep (existing merged : Dict) (k : String) (v : JValue) : Option Dict :=
  if truthy v && (!truthy (pyGet existing k) || k == "updated_at" || k == "description") then
    some (setKey merged k v)
  else if k == "hours" && truthy v then
    match pyGetD existing "hours" (.obj []), v with
    | .obj xs, .obj ys => some (setKey merged "hours" (.obj (objUnion xs ys)))
    | _, _ => none
  else if k == "social_media" && truthy v then
    match pyGetD existing "social_media" (.obj []), v with
    | .obj xs, .obj ys => some (setKey merged "social_media" (.obj (objUnion xs ys)))
    | _, _ => none
  else
    some merged

/-- The loop of `_merge_business_data` over the remaining items of `new`. -/
def mergeFields (existing : Dict) : List (String × JValue) → Dict → Option Dict
  | [], merged => some merged
  | (k, v) :: rest, merged =>
      (mergeStep existing merged k v).bind (mergeFields existing rest)

/-- `MongoDBClient._merge_business_data(existing, new)` (lines 73-87):
start from a copy of `existing` and fold the items of `new` over it. -/
def mergeBusinessData (existing new : Dict) : Option Dict :=
  mergeFields existing new existing

/-- The duplicate-detection predicate of `save_businesses` when the entity
has a truthy name and address: `find_one({"name": .., "address": ..})`. -/
def matchesNameAddress (business doc : Dict) : Bool :=
  JValue.beq (pyGet doc "name") (pyGet business "name") &&
  JValue.beq (pyGet doc "address") (pyGet business "address")

/-- The duplicate-detection predicate when only a truthy website is
available: `find_one({"website": ..})`. -/
def matchesWebsite (business doc : Dict) : Bool :=
  JValue.beq (pyGet doc "website") (pyGet business "website")

/-- `find_one`: the first document of the collection satisfying the query,
together with its position (standing in for `_id`). -/
def findOne (p : Dict → Bool) : List Dict → Option (Nat × Dict)
  | [] => none
  | doc :: rest =>
      if p doc then some (0, doc)
      else (findOne p rest).map (fun id => (id.1 + 1, id.2))

/-- The metadata stamping at the top of the loop body (lines 41-42):
`business["updated_at"] = datetime.utcnow(); business["source_type"] = source_type`. -/
def stampEntity (now sourceType : JValue) (business : Dict) : Dict :=
  setKey (setKey business "updated_at" now) "source_type" sourceType

/-- The body of the `for business in businesses` loop of `save_businesses`
(lines 39-68) for one entity: stamp the metadata, look up a duplicate,
merge-update or insert.  Returns the new collection plus `true` when a new
record was inserted (`saved_count += 1`), `false` when an existing record
was updated (`updated_count += 1`). -/
def saveOneBusiness (now sourceType : JValue) (store : List Dict)
    (business : Dict) : Option (List Dict × Bool) :=
  let b := stampEntity now sourceType business
  let existing : Option (Nat × Dict) :=
    if truthy (pyGet b "name") && truthy (pyGet b "address") then
      findOne (matchesNameAddress b) store
    else if truthy (pyGet b "website") then
      findOne (matchesWebsite b) store
    else none
  match existing with
  | some (i, doc) =>
      -- update_one({"_id": ..}, {"$set": merged}): merged holds every key of
      -- the found document (it starts as its copy), so the post-state
      -- document is exactly merged.
      (mergeBusinessData doc b).map (fun merged => (store.set i merged, false))
  | none => some (store ++ [setKey b "created_at" now], true)

/-- Result of `save_businesses`: the final collection and the returned
`{"saved": saved_count, "updated": updated_count}` counters. -/
structure SaveOutcome where
  store : List Dict
  saved : Nat
  updated : Nat
deriving Repr

/-- The `for business in businesses` loop of `save_businesses`, threading
the collection and both counters. -/
def saveBusinessesLoop (now sourceType : JValue) :
    List Dict → List Dict → Nat → Nat → Option SaveOutcome
  | [], store, savedCount, updatedCount => some ⟨store, savedCount, updatedCount⟩
  | business :: rest, store, savedCount, updatedCount =>
      match saveOneBusiness now sourceType store business with
      | none => none
      | some (store', inserted) =>
          saveBusinessesLoop now sourceType rest store'
            (savedCount + if inserted then 1 else 0)
            (updatedCount + if inserted then 0 else 1)

/-- `MongoDBClient.save_businesses(businesses, source_type)` (lines 30-71)
against a given collection state. -/
def saveBusinesses (now sourceType : JValue) (store businesses : List Dict) :
    Option SaveOutcome :=
  saveBusinessesLoop now sourceType businesses store 0 0

/-- Number of records in the collection matching an entity's
`(name, address)` identity. -/
def countNameAddressMatches (business : Dict) (store : List Dict) : Nat :=
  (store.filter (matchesNameAddress business)).length

/-- An entity whose `hours` field is free text – which the
`BusinessEntity` schema explicitly allows (`Union[str, Dict, List]`). -/
def c1BadEntity : Dict :=
  [("name", .str "A"), ("address", .str "X"), ("hours", .str "9am-5pm")]

/-- The record stored by the first save of `c1BadEntity`. -/
def c1BadStored : Dict :=
  [("name", .str "A"), ("address", .str "X"), ("hours", .str "9am-5pm"),
   ("updated_at", .str "t1"), ("source_type", .str "website"),
   ("created_at", .str "t1")]

/-- A stored record used to exercise the merge semantics. -/
def c3Existing : Dict :=
  [("name", .str "A"), ("address", .str "X"), ("phone", .str "123"),
   ("description", .str "old"), ("hours", .obj [("mon", .str "9")])]

/-- An incoming entity overlapping `c3Existing` on several fields. -/
def c3New : Dict :=
  [("phone", .str "456"), ("description", .str "fresh"),
   ("website", .str "w"), ("hours", .obj [("tue", .str "8")])]

/-- The record `_merge_business_data` produces for `c3Existing`/`c3New`:
the truthy stored phone survives, `description` takes the incoming value,
the missing `website` is filled, and `hours` is merged key-wise. -/
def c3Merged : Dict :=
  [("name", .str "A"), ("address", .str "X"), ("phone", .str "123"),
   ("description", .str "fresh"),
   ("hours", .obj [("mon", .str "9"), ("tue", .str "8")]),
   ("website", .str "w")]

/-! ### Lemmas about dict lookup, keys, and the collection scan -/

/-! ## Extraction service: src/scrapers/llm_data_extraction.py with the
pydantic models of schemas/website_schema.py and schemas/search_schema.py

The LLM completion call, `json.loads` and the Crawl4AI crawler are external
collaborators; they enter as oracle parameters (the raw completion outcome,
a JSON parser `String → Option JValue`, per-attempt crawl outcomes).
Pydantic validation and `model_dump` are modelled concretely on `JValue`
trees following the two schema modules (required fields must be present
with the annotated type, `Optional` fields default to `None`, extra keys
are ignored). -/

/-- `schemas/website_schema.py: SourceMetadata`. -/
structure SourceMetadata where
  name : String
  url : String
  type : Option String
  summary : String

/-- `schemas/website_schema.py: ExtractionResult` (the nested result
envelope, not the service output). -/
structure ExtractionResult where
  success : Bool
  entities_found : Int
  error : Option String
  error_details : Option String

/-- `RelevantURL`, identical in both schema modules. -/
structure RelevantURL where
  title : String
  reason : String
  url : String

/-- `schemas/website_schema.py: ExtractionMetadata`. -/
structure ExtractionMetadata where
  source : SourceMetadata
  result : ExtractionResult
  relevant_urls : List RelevantURL

/-- `schemas/website_schema.py: BusinessEntity`.  `rating` is
`Union[str, float]`, `hours` is `Union[str, Dict, List]`, `location` is
`Dict[str, float]`; the union payloads are carried as `JValue`. -/
structure BusinessEntity where
  name : String
  address : String
  phone : Option String
  website : Option String
  category : String
  rating : Option JValue
  hours : Option JValue
  location : Option Dict

/-- `schemas/website_schema.py: WebsiteExtractionResult`. -/
structure WebsiteExtractionResult where
  metadata : ExtractionMetadata
  entities : List BusinessEntity

/-- `schemas/search_schema.py: SearchContext`. -/
structure SearchContext where
  query : String
  url : String
  results : Int

/-- `schemas/search_schema.py: SearchResult`. -/
structure SearchResult where
  success : Bool
  urls_found : Int
  error : Option String
  error_details : Option String

/-- `schemas/search_schema.py: SearchMetadata`. -/
structure SearchMetadata where
  context : SearchContext
  result : SearchResult

/-- `schemas/search_schema.py: SearchExtractionResult`. -/
structure SearchExtractionResult where
  metadata : SearchMetadata
  urls : List RelevantURL

/-! Pydantic field validation on `JValue` payloads. -/

/-- A required `str` field. -/
def asStr : JValue → Option String
  | .str s => some s
  | _ => none

/-- A required `bool` field. -/
def asBool : JValue → Option Bool
  | .bool b => some b
  | _ => none

/-- A required `int` field. -/
def asInt : JValue → Option Int
  | .num n => some n
  | _ => none

/-- An `Optional[str]` field with default `None`: absent or null is fine,
any present value must be a string. -/
def parseOptStr : Option JValue → Option (Option String)
  | none => some none
  | some .null => some none
  | some (.str s) => some (some s)
  | some _ => none

/-- `Optional[Union[str, float]]` (the `rating` field). -/
def parseRating : Option JValue → Option (Option JValue)
  | none => some none
  | some .null => some none
  | some (.str s) => some (some (.str s))
  | some (.num n) => some (some (.num n))
  | some _ => none

/-- `Optional[Union[str, Dict, List]]` (the `hours` field). -/
def parseHours : Option JValue → Option (Option JValue)
  | none => some none
  | some .null => some none
  | some (.str s) => some (some (.str s))
  | some (.obj fs) => some (some (.obj fs))
  | some (.arr its) => some (some (.arr its))
  | some _ => none

/-- `Optional[Dict[str, float]]` (the `location` field). -/
def parseLocation : Option JValue → Option (Option Dict)
  | none => some none
  | some .null => some none
  | some (.obj fs) =>
      if fs.all (fun kv => match kv.2 with | .num _ => true | _ => false)
      then some (some fs) else none
  | some _ => none

/-- A required homogeneous list field. -/
def parseList (f : JValue → Option α) : JValue → Option (List α)
  | .arr items => items.mapM f
  | _ => none

def parseSourceMetadata : JValue → Option SourceMetadata
  | .obj d => do
      let name ← (getKey d "name").bind asStr
      let url ← (getKey d "url").bind asStr
      let type ← parseOptStr (getKey d "type")
      let summary ← (getKey d "summary").bind asStr
      pure ⟨name, url, type, summary⟩
  | _ => none

def parseExtractionResult : JValue → Option ExtractionResult
  | .obj d => do
      let success ← (getKey d "success").bind asBool
      let found ← (getKey d "entities_found").bind asInt
      let error ← parseOptStr (getKey d "error")
      let details ← parseOptStr (getKey d "error_details")
      pure ⟨success, found, error, details⟩
  | _ => none

def parseRelevantURL : JValue → Option RelevantURL
  | .obj d => do
      let title ← (getKey d "title").bind asStr
      let reason ← (getKey d "reason").bind asStr
      let url ← (getKey d "url").bind asStr
      pure ⟨title, reason, url⟩
  | _ => none

def parseExtractionMetadata : JValue → Option ExtractionMetadata
  | .obj d => do
      let source ← (getKey d "source").bind parseSourceMetadata
      let result ← (getKey d "result").bind parseExtractionResult
      -- relevant_urls has default_factory=list: absent means []
      let rus ← match getKey d "relevant_urls" with
        | none => some []
        | some v => parseList parseRelevantURL v
      pure ⟨source, result, rus⟩
  | _ => none

def parseBusinessEntity : JValue → Option BusinessEntity
  | .obj d => do
      let name ← (getKey d "name").bind asStr
      let address ← (getKey d "address").bind asStr
      let phone ← parseOptStr (getKey d "phone")
      let website ← parseOptStr (getKey d "website")
      let category ← (getKey d "category").bind asStr
      let rating ← parseRating (getKey d "rating")
      let hours ← parseHours (getKey d "hours")
      let location ← parseLocation (getKey d "location")
      pure ⟨name, address, phone, website, category, rating, hours, location⟩
  | _ => none

/-- Pydantic validation `WebsiteExtractionResult(**parsed)`. -/
def parseWebsiteExtractionResult : JValue → Option WebsiteExtractionResult
  | .obj d => do
      let md ← (getKey d "metadata").bind parseExtractionMetadata
      let entities ← (getKey d "entities").bind (parseList parseBusinessEntity)
      pure ⟨md, entities⟩
  | _ => none

def parseSearchContext : JValue → Option SearchContext
  | .obj d => do
      let query ← (getKey d "query").bind asStr
      let url ← (getKey d "url").bind asStr
      let results ← (getKey d "results").bind asInt
      pure ⟨query, url, results⟩
  | _ => none

def parseSearchResult : JValue → Option SearchResult
  | .obj d => do
      let success ← (getKey d "success").bind asBool
      let found ← (getKey d "urls_found").bind asInt
      let error ← parseOptStr (getKey d "error")
      let details ← parseOptStr (getKey d "error_details")
      pure ⟨success, found, error, details⟩
  | _ => none

def parseSearchMetadata : JValue → Option SearchMetadata
  | .obj d => do
      let context ← (getKey d "context").bind parseSearchContext
      let result ← (getKey d "result").bind parseSearchResult
      pure ⟨context, result⟩
  | _ => none

/-- Pydantic validation `SearchExtractionResult(**parsed)`. -/
def parseSearchExtractionResult : JValue → Option SearchExtractionResult
  | .obj d => do
      let md ← (getKey d "metadata").bind parseSearchMetadata
      let urls ← (getKey d "urls").bind (parseList parseRelevantURL)
      pure ⟨md, urls⟩
  | _ => none

/-! `model_dump()` of the validated models: every schema field appears as a
key, `None` dumps as null. -/

def dumpOptStr : Option String → JValue
  | none => .null
  | some s => .str s

def dumpOptJ : Option JValue → JValue
  | none => .null
  | some v => v

def SourceMetadata.dump (s : SourceMetadata) : JValue :=
  .obj [("name", .str s.name), ("url", .str s.url),
    ("type", dumpOptStr s.type), ("summary", .str s.summary)]

def ExtractionResult.dump (r : ExtractionResult) : JValue :=
  .obj [("success", .bool r.success), ("entities_found", .num r.entities_found),
    ("error", dumpOptStr r.error), ("error_details", dumpOptStr r.error_details)]

def RelevantURL.dump (r : RelevantURL) : JValue :=
  .obj [("title", .str r.title), ("reason", .str r.reason), ("url", .str r.url)]

def ExtractionMetadata.dump (m : ExtractionMetadata) : JValue :=
  .obj [("source", m.source.dump), ("result", m.result.dump),
    ("relevant_urls", .arr (m.relevant_urls.map RelevantURL.dump))]

def BusinessEntity.dump (e : BusinessEntity) : JValue :=
  .obj [("name", .str e.name), ("address", .str e.address),
    ("phone", dumpOptStr e.phone), ("website", dumpOptStr e.website),
    ("category", .str e.category), ("rating", dumpOptJ e.rating),
    ("hours", dumpOptJ e.hours),
    ("location", match e.location with | none => .null | some fs => .obj fs)]

def WebsiteExtractionResult.dump (r : WebsiteExtractionResult) : Dict :=
  [("metadata", r.metadata.dump),
   ("entities", .arr (r.entities.map BusinessEntity.dump))]

def SearchContext.dump (c : SearchContext) : JValue :=
  .obj [("query", .str c.query), ("url", .str c.url), ("results", .num c.results)]

def SearchResult.dump (r : SearchResult) : JValue :=
  .obj [("success", .bool r.success), ("urls_found", .num r.urls_found),
    ("error", dumpOptStr r.error), ("error_details", dumpOptStr r.error_details)]

def SearchMetadata.dump (m : SearchMetadata) : JValue :=
  .obj [("context", m.context.dump), ("result", m.result.dump)]

def SearchExtractionResult.dump (r : SearchExtractionResult) : Dict :=
  [("metadata", r.metadata.dump),
   ("urls", .arr (r.urls.map RelevantURL.dump))]

/-- `LLMDataExtractor._create_standardized_error_response`
(llm_data_extraction.py lines 162-215). -/
def createStandardizedErrorResponse (schemaType : String)
    (errorReason : String) (sourceUrl : String) : Dict :=
  if schemaType == "website" then
    [("metadata", .obj [
        ("source", .obj [("name", .str "ExtractionError"),
          ("url", .str sourceUrl), ("type", .str "Error"),
          ("summary", .str ("Data extraction failed: " ++ errorReason))]),
        ("result", .obj [("success", .bool false), ("entities_found", .num 0),
          ("error", .str "ExtractionError"),
          ("error_details", .str errorReason)]),
        ("relevant_urls", .arr [])]),
     ("entities", .arr [])]
  else
    [("metadata", .obj [
        ("context", .obj [("query", .str "unknown"),
          ("url", .str sourceUrl), ("results", .num 0)]),
        ("result", .obj [("success", .bool false), ("urls_found", .num 0),
          ("error", .str "ExtractionError"),
          ("error_details", .str errorReason)])]),
     ("urls", .arr [])]

/-- Validate a parsed JSON value against the schema selected at
construction and dump it; on `ValidationError` fall back to the
standardized error envelope with the caller's message. -/
def validateAndDump (schemaType : String) (j : JValue) (failMsg : String)
    (sourceUrl : String) : Dict :=
  if schemaType == "website" then
    match parseWebsiteExtractionResult j with
    | some model => model.dump
    | none => createStandardizedErrorResponse schemaType failMsg sourceUrl
  else
    match parseSearchExtractionResult j with
    | some model => model.dump
    | none => createStandardizedErrorResponse schemaType failMsg sourceUrl

/-- `LLMDataExtractor._extract_via_direct_api` (lines 217-279): the LLM
call either raises (`.error`) or returns raw content that is JSON-parsed
and schema-validated; every failure becomes a standardized error
envelope. -/
def extractViaDirectApi (schemaType : String)
    (parseJson : String → Option JValue)
    (llmCompletion : Except String String) (sourceUrl : String) : Dict :=
  match llmCompletion with
  | .error apiError =>
      createStandardizedErrorResponse schemaType
        ("Direct API request failed: " ++ apiError) sourceUrl
  | .ok raw =>
      match parseJson raw with
      | none =>
          createStandardizedErrorResponse schemaType
            "Response validation failed: JSONDecodeError" sourceUrl
      | some parsed =>
          validateAndDump schemaType parsed
            "Response validation failed: ValidationError" sourceUrl

/-- `LLMDataExtractor._is_valid_schema_structure` (lines 420-433) for dict
payloads; the pipeline only reaches this check with dict array elements. -/
def isValidSchemaStructure (schemaType : String) (j : JValue) : Bool :=
  match j with
  | .obj d =>
      if schemaType == "website" then
        (getKey d "metadata").isSome && (getKey d "entities").isSome
      else
        (getKey d "metadata").isSome && (getKey d "urls").isSome
  | _ => false

/-- `LLMDataExtractor._process_extraction_result` (lines 372-418): parse
the extracted content, normalize array responses by taking the first
structurally valid element, validate, and fall back to the error
envelope. -/
def processExtractionResult (schemaType : String)
    (parseJson : String → Option JValue)
    (extractedContent : String) (sourceUrl : String) : Dict :=
  match parseJson extractedContent with
  | none =>
      createStandardizedErrorResponse schemaType
        "Content processing failed: JSONDecodeError" sourceUrl
  | some parsed =>
      match parsed with
      | .arr [] =>
          createStandardizedErrorResponse schemaType
            "Empty array received from LLM" sourceUrl
      | .arr (first :: _) =>
          if isValidSchemaStructure schemaType first then
            validateAndDump schemaType first
              "Content processing failed: ValidationError" sourceUrl
          else
            createStandardizedErrorResponse schemaType
              "Invalid array structure in LLM response" sourceUrl
      | _ =>
          validateAndDump schemaType parsed
            "Content processing failed: ValidationError" sourceUrl

/-- One `crawler.arun` attempt of `_extract_via_crawl4ai`: success with
extracted content, a soft failure (which is retried), or an unexpected
exception (which returns an error envelope immediately). -/
inductive CrawlOutcome where
  | success (extractedContent : String)
  | failure (errorMessage : String)
  | raised (errorMessage : String)

/-- The retry loop of `_extract_via_crawl4ai` (lines 326-370), with
`fuel` remaining retries after the current attempt. -/
def extractViaCrawl4aiLoop (schemaType : String)
    (parseJson : String → Option JValue) (arun : Nat → CrawlOutcome)
    (sourceUrl : String) : Nat → Nat → Dict
  | attempt, 0 =>
      match arun attempt with
      | .success c => processExtractionResult schemaType parseJson c sourceUrl
      | .failure e =>
          createStandardizedErrorResponse schemaType
            ("All extraction attempts failed: " ++ e) sourceUrl
      | .raised e =>
          createStandardizedErrorResponse schemaType
            ("Unexpected extraction error: " ++ e) sourceUrl
  | attempt, fuel + 1 =>
      match arun attempt with
      | .success c => processExtractionResult schemaType parseJson c sourceUrl
      | .failure _ =>
          extractViaCrawl4aiLoop schemaType parseJson arun sourceUrl
            (attempt + 1) fuel
      | .raised e =>
          createStandardizedErrorResponse schemaType
            ("Unexpected extraction error: " ++ e) sourceUrl

/-- `LLMDataExtractor._extract_via_crawl4ai` (lines 281-370):
`max_retry_attempts + 1` attempts in total. -/
def extractViaCrawl4ai (schemaType : String)
    (parseJson : String → Option JValue) (arun : Nat → CrawlOutcome)
    (sourceUrl : String) (maxRetryAttempts : Nat) : Dict :=
  extractViaCrawl4aiLoop schemaType parseJson arun sourceUrl 0 maxRetryAttempts

/-- `LLMDataExtractor._is_successful` (lines 435-439):
`result.get("metadata", {}).get("result", {}).get("success", False)`,
used for truthiness.  Results flowing through the service are dicts with
dict `metadata`/`result` values, so the non-dict fallbacks are
unreachable there. -/
def isSuccessful (result : Dict) : Bool :=
  match pyGetD result "metadata" (.obj []) with
  | .obj metadata =>
      match pyGetD metadata "result" (.obj []) with
      | .obj resultInfo => truthy (pyGetD resultInfo "success" (.bool false))
      | _ => false
  | _ => false

/-- The result of `process_item` plus how often each extraction method ran
for the item. -/
structure ItemTrace where
  result : Dict
  directCalls : Nat
  crawl4aiCalls : Nat

/-- `_process_extraction_batch.process_item` (lines 450-469): try the
primary method; if its result is not successful, invoke the other method
once and return its result.  `crawl4ai` and `direct` are the per-item
outcomes of the two extraction methods. -/
def processItem (extractionMethod : String) (crawl4ai direct : Dict → Dict)
    (item : Dict) : ItemTrace :=
  if extractionMethod == "crawl4ai" then
    let r := crawl4ai item
    if isSuccessful r then ⟨r, 0, 1⟩ else ⟨direct item, 1, 1⟩
  else
    let r := direct item
    if isSuccessful r then ⟨r, 1, 0⟩ else ⟨crawl4ai item, 1, 1⟩

/-- `next(iter(data_item.keys()))` with the `"unknown"` fallback for an
empty dict: the source URL of an input item is its first key. -/
def itemUrl : Dict → String
  | [] => "unknown"
  | (k, _) :: _ => k

/-- The error entry created for each item of a batch whose
`asyncio.gather` raised (lines 539-549). -/
def batchErrorEntry (schemaType : String) (batchNumber : Nat) (msg : String)
    (item : Dict) : Dict :=
  createStandardizedErrorResponse schemaType
    ("Batch " ++ toString batchNumber ++ " processing failed: " ++ msg)
    (itemUrl item)

/-- The batch loop of `execute_data_extraction` (lines 514-549): slice the
input into `batchSize`-sized groups in order; a batch either processes
every item (`gather` keeps input order) or, when the whole batch raises
(`failBatch` gives the exception message), contributes one error entry per
item.  `batchNumber` is 1-based as in the log messages. -/
def runBatches (schemaType : String) (processOne : Dict → Dict)
    (failBatch : Nat → Option String) (batchSize : Nat) :
    Nat → List Dict → List Dict
  | _, [] => []
  | batchNumber, item :: rest =>
      let batch := item :: rest.take (batchSize - 1)
      let remaining := rest.drop (batchSize - 1)
      (match failBatch batchNumber with
        | some msg => batch.map (batchErrorEntry schemaType batchNumber msg)
        | none => batch.map processOne) ++
        runBatches schemaType processOne failBatch batchSize
          (batchNumber + 1) remaining
  termination_by _ l => l.length
  decreasing_by simp [List.length_drop]; omega

/-- `LLMDataExtractor.execute_data_extraction` (lines 476-566): validate
the method, short-circuit an empty input list with a single error entry,
and otherwise process the input in batches. -/
def executeDataExtraction (schemaType extractionMethod : String)
    (processOne : Dict → Dict) (failBatch : Nat → Option String)
    (maxBatchSize : Nat) (inputDataList : List Dict) :
    Except String (List Dict) :=
  if extractionMethod != "direct" && extractionMethod != "crawl4ai" then
    .error ("Unsupported extraction method: " ++ extractionMethod)
  else if inputDataList.isEmpty then
    .ok [createStandardizedErrorResponse schemaType "No input data provided" ""]
  else
    .ok (runBatches schemaType processOne failBatch maxBatchSize 1
      inputDataList)

/-- Python whitespace as stripped by `str.strip()`. -/
def isPySpace (c : Char) : Bool :=
  c = ' ' || c = '\t' || c = '\n' || c = '\r' || c = '\x0b' || c = '\x0c'

/-- Python `s.strip()`. -/
def pyStrip (s : String) : String :=
  String.mk (((s.toList.dropWhile isPySpace).reverse.dropWhile
    isPySpace).reverse)

/-- The validation at the top of `LLMDataExtractor.__init__` (lines
143-149): empty input list, empty/whitespace-only prompt, or an unknown
schema type raise `ValueError` (modelled as `.error` with the message);
any other input constructs the extractor. -/
def initLLMDataExtractor (inputDataList : List Dict)
    (extractionPrompt : String) (schemaType : String) : Except String Unit :=
  if inputDataList.isEmpty then
    .error "Input data list cannot be empty"
  else if (pyStrip extractionPrompt).isEmpty then
    .error "Extraction prompt cannot be empty"
  else if schemaType != "website" && schemaType != "search" then
    .error "Schema type must be website or search"
  else
    .ok ()

/-! Schema-shape predicates for claim C6: all keys of the schema variant
are present. -/

/-- The value is a dict carrying every listed key. -/
def objHasKeys (v : JValue) (ks : List String) : Bool :=
  match v with
  | .obj d => ks.all (fun k => (getKey d k).isSome)
  | _ => false

/-- Every key of the website schema variant is present. -/
def websiteShape (r : Dict) : Bool :=
  match getKey r "metadata", getKey r "entities" with
  | some (.obj md), some (.arr _) =>
      objHasKeys (pyGet md "source") ["name", "url", "type", "summary"] &&
      objHasKeys (pyGet md "result")
        ["success", "entities_found", "error", "error_details"] &&
      (match getKey md "relevant_urls" with
        | some (.arr _) => true
        | _ => false)
  | _, _ => false

/-- Every key of the search schema variant is present. -/
def searchShape (r : Dict) : Bool :=
  match getKey r "metadata", getKey r "urls" with
  | some (.obj md), some (.arr _) =>
      objHasKeys (pyGet md "context") ["query", "url", "results"] &&
      objHasKeys (pyGet md "result")
        ["success", "urls_found", "error", "error_details"]
  | _, _ => false

/-- A schema-valid LLM response that pairs `success=false` with a
non-empty `entities` list: nothing in the pydantic schema ties the two
together. -/
def c6LLMJson : JValue :=
  .obj [("metadata", .obj [
      ("source", .obj [("name", .str "n"), ("url", .str "u"),
        ("type", .null), ("summary", .str "s")]),
      ("result", .obj [("success", .bool false), ("entities_found", .num 0),
        ("error", .null), ("error_details", .null)]),
      ("relevant_urls", .arr [])]),
    ("entities", .arr [.obj [("name", .str "A"), ("address", .str "B"),
      ("category", .str "Business")]])]

/-- A JSON parser oracle returning `c6LLMJson` for the completion text. -/
def c6Parse : String → Option JValue :=
  fun s => if s = "resp" then some c6LLMJson else none

/-- The validated entity inside `c6LLMJson`. -/
def c6Entity : BusinessEntity :=
  ⟨"A", "B", none, none, "Business", none, none, none⟩

/-- A failed extraction outcome used to drive the fallback path. -/
def c5FailResult : Dict :=
  createStandardizedErrorResponse "website" "strategy timeout" "http://x"

/-- A successful extraction outcome (`metadata.result.success` truthy). -/
def c5OkResult : Dict :=
  [("metadata", .obj [("result", .obj [("success", .bool true)])])]

/-! ## Content normalizer: src/utils/helpers.py -/

/-- `HTMLContentProcessor.parse_json_scripts` (helpers.py lines 193-228):
best-effort parse of each script block.  `clean` stands for the
unescape / comment-strip / strip chain, `parseJson` for `json.loads`;
blocks that clean to nothing or fail to parse are skipped
(`continue`). -/
def parseJsonScripts (clean : String → String)
    (parseJson : String → Option JValue) : List String → List JValue
  | [] => []
  | raw :: rest =>
      let c := clean raw
      if c = "" then parseJsonScripts clean parseJson rest
      else
        match parseJson c with
        | some parsed => parsed :: parseJsonScripts clean parseJson rest
        | none => parseJsonScripts clean parseJson rest

/-- The `json_scripts` component of
`HTMLContentProcessor.get_llm_friendly_content` (lines 313-319): the
parsed blocks — or every raw script string when no block parsed
(`if not parsed_scripts_list: parsed_scripts_list = raw_script_contents`). -/
def jsonScriptsOutput (clean : String → String)
    (parseJson : String → Option JValue)
    (rawScriptContents : List String) : List JValue :=
  let parsed := parseJsonScripts clean parseJson rawScriptContents
  if parsed.isEmpty then rawScriptContents.map JValue.str else parsed

/-- A JSON parser oracle that parses exactly the block `"good"`. -/
def c9Parse : String → Option JValue :=
  fun s => if s = "good" then some (.obj []) else none

/-! ## Job API and job runner: src/backend/app/api/jobs.py,
src/backend/app/models/job.py, src/backend/app/services/job_runner.py -/

/-- `JobStatus` of app/models/job.py. -/
inductive JobStatus where
  | pending
  | running
  | completed
  | failed
deriving Repr, DecidableEq

/-- A document of the `jobs` collection as `cancel_job` sees it: its
`_id` (modelled as a number), the `status` and `error` fields, and the
rest of the document, which the endpoint never touches. -/
structure JobDoc where
  oid : Nat
  status : JobStatus
  error : Option String
  payload : Dict
deriving Repr

/-- `update_one` with filter `{"_id": oid, "status": pending}` and update
`{"$set": {"status": failed, "error": "Cancelled by user"}}`: modify the
first matching document; the Bool is `modified_count == 1`. -/
def updateFirstPendingToFailed (oid : Nat) :
    List JobDoc → List JobDoc × Bool
  | [] => ([], false)
  | j :: rest =>
      if j.oid = oid ∧ j.status = JobStatus.pending then
        ({ j with status := JobStatus.failed, error := some "Cancelled by user" } :: rest, true)
      else
        let r := updateFirstPendingToFailed oid rest
        (j :: r.1, r.2)

/-- The two responses of `cancel_job`: the success message, or the 404
raised when `modified_count == 0`. -/
inductive CancelResponse where
  | cancelled
  | notFound
deriving Repr, DecidableEq

/-- `cancel_job` (jobs.py lines 73-88) for a well-formed job id: the new
collection state and the HTTP response. -/
def cancelJob (jobs : List JobDoc) (oid : Nat) :
    List JobDoc × CancelResponse :=
  let r := updateFirstPendingToFailed oid jobs
  if r.2 then (r.1, .cancelled) else (r.1, .notFound)

/-- First-occurrence, order-preserving deduplication. -/
def dedupFirstAux (seen : List String) : List String → List String
  | [] => []
  | x :: xs =>
      if x ∈ seen then dedupFirstAux seen xs
      else x :: dedupFirstAux (x :: seen) xs

/-- Deduplicate a url list, keeping first occurrences in order. -/
def dedupFirst (l : List String) : List String := dedupFirstAux [] l

/-- Modelled from the spec: `process_search_terms` — imported by the job
runner from `scrapers.searches_scraping` but not present under src/ — is
the Search sub-pipeline run on the job's terms; its result dict carries
under `"urls"` the URLs the search phase discovered, deduplicated
("Pipeline: search then scrape, chaining discovered URLs from the search
phase into the scrape phase, deduplicated").  `searchOracle` stands for
the network/LLM-driven discovery itself. -/
def processSearchTerms (searchOracle : List String → List String)
    (terms : List String) : JValue :=
  .obj [("urls", .arr ((dedupFirst (searchOracle terms)).map JValue.str))]

/-- Outcome of running a Pipeline job: the terminal status, the stored
`result`, and the url-list arguments passed to `process_website_urls`. -/
structure PipelineRun where
  status : JobStatus
  result : JValue
  scrapeCalls : List JValue
deriving Repr

/-- The `JobType.PIPELINE` branch of `run_scraping_job` (job_runner.py
lines 94-106) together with the completion update (lines 108-118): after
the search phase, only when its result is truthy with a truthy `"urls"`
value does the scrape phase run on exactly those URLs; the job is then
marked Completed with `result or {"message": "Job completed
successfully"}`. -/
def runPipelineJob (searchResult : JValue)
    (scrapePhase : JValue → JValue) : PipelineRun :=
  let urlsVal := match searchResult with
    | .obj fields => pyGet fields "urls"
    | _ => JValue.null
  if truthy searchResult && truthy urlsVal then
    let scraped := scrapePhase urlsVal
    { status := .completed,
      result := if truthy scraped then scraped
        else .obj [("message", .str "Job completed successfully")],
      scrapeCalls := [urlsVal] }
  else
    { status := .completed,
      result := .obj [("message", .str "Job completed successfully")],
      scrapeCalls := [] }

/-- The full Pipeline flow: search phase first, then the conditional
scrape phase. -/
def runPipelineWithSearch (searchOracle : List String → List String)
    (scrapePhase : JValue → JValue) (terms : List String) : PipelineRun :=
  runPipelineJob (processSearchTerms searchOracle terms) scrapePhase

mutual

theorem JValue.beq_refl : ∀ a : JValue, JValue.beq a a = true
  | .null => rfl
  | .bool b => by simp [JValue.beq]
  | .num n => by simp [JValue.beq]
  | .str s => by simp [JValue.beq]
  | .arr as => JValue.beqItems_refl as
  | .obj fs => JValue.beqFields_refl fs

theorem JValue.beqItems_refl : ∀ as : List JValue, JValue.beqItems as as = true
  | [] => rfl
  | a :: as => by
      simp [JValue.beqItems, JValue.beq_refl a, JValue.beqItems_refl as]

theorem JValue.beqFields_refl :
    ∀ fs : List (String × JValue), JValue.beqFields fs fs = true
  | [] => rfl
  | (ka, a) :: fs => by
      simp [JValue.beqFields, JValue.beq_refl a, JValue.beqFields_refl fs]

end

/-! ### Lemmas about the dict operations -/

theorem getKey_setKey_self (d : Dict) (k : String) (v : JValue) :
    getKey (setKey d k v) k = some v := by
  induction d with
  | nil => simp [setKey, getKey]
  | cons hd tl ih =>
      by_cases h : hd.1 = k
      · simp [setKey, getKey, h]
      · simp [setKey, getKey, h, ih]

theorem getKey_setKey_other (d : Dict) (k k' : String) (v : JValue)
    (hne : k' ≠ k) : getKey (setKey d k v) k' = getKey d k' := by
  have hne' : ¬ k = k' := fun h => hne h.symm
  induction d with
  | nil =>
      simp only [setKey, getKey]
      rw [if_neg hne']
  | cons hd tl ih =>
      by_cases h : hd.1 = k
      · subst h
        simp only [setKey, if_pos rfl, getKey, if_neg hne']
      · simp only [setKey, if_neg h, getKey]
        by_cases h2 : hd.1 = k'
        · simp [h2]
        · simp [h2, ih]

theorem dictKeys_setKey_of_mem (d : Dict) (k : String) (v : JValue)
    (hmem : k ∈ dictKeys d) : dictKeys (setKey d k v) = dictKeys d := by
  induction d with
  | nil => simp [dictKeys] at hmem
  | cons hd tl ih =>
      by_cases h : hd.1 = k
      · simp [setKey, dictKeys, h]
      · have hmem' : k ∈ dictKeys tl := by
          rcases List.mem_cons.mp hmem with h1 | h1
          · exact absurd h1.symm h
          · exact h1
        simp only [setKey, if_neg h, dictKeys, List.map_cons, List.cons.injEq,
          true_and]
        exact ih hmem'

theorem getKey_mem_keys {d : Dict} {k : String} {v : JValue}
    (h : getKey d k = some v) : k ∈ dictKeys d := by
  induction d with
  | nil => simp [getKey] at h
  | cons hd tl ih =>
      by_cases hk : hd.1 = k
      · subst hk
        exact List.mem_cons_self _ _
      · simp only [getKey, if_neg hk] at h
        exact List.mem_cons_of_mem _ (ih h)

theorem getKey_eq_none_of_not_mem {d : Dict} {k : String}
    (h : k ∉ dictKeys d) : getKey d k = none := by
  induction d with
  | nil => rfl
  | cons hd tl ih =>
      have h1 : ¬ hd.1 = k := fun he => h (he ▸ List.mem_cons_self _ _)
      have h2 : k ∉ dictKeys tl := fun hm => h (List.mem_cons_of_mem _ hm)
      simp [getKey, h1, ih h2]

theorem mem_of_getKey_eq_some {d : Dict} {k : String} {v : JValue}
    (h : getKey d k = some v) : (k, v) ∈ d := by
  induction d with
  | nil => simp [getKey] at h
  | cons hd tl ih =>
      by_cases hk : hd.1 = k
      · obtain ⟨a, b⟩ := hd
        simp only at hk
        subst hk
        simp only [getKey, if_pos, Option.some.injEq] at h
        subst h
        exact List.mem_cons_self _ _
      · simp only [getKey, if_neg hk] at h
        exact List.mem_cons_of_mem _ (ih h)

theorem getKey_eq_some_of_mem_nodup {d : Dict} {k : String} {v : JValue}
    (hnd : (dictKeys d).Nodup) (h : (k, v) ∈ d) : getKey d k = some v := by
  induction d with
  | nil => simp at h
  | cons hd tl ih =>
      rcases List.mem_cons.mp h with h1 | h1
      · subst h1; simp [getKey]
      · have hk : ¬ hd.1 = k := by
          intro he
          have : k ∈ dictKeys tl := by
            have : (k, v).1 ∈ dictKeys tl := List.mem_map_of_mem Prod.fst h1
            simpa using this
          exact (List.nodup_cons.mp hnd).1 (he ▸ this)
        have hnd' : (dictKeys tl).Nodup := (List.nodup_cons.mp hnd).2
        simp [getKey, hk, ih hnd' h1]

theorem dictKeys_setKey_of_not_mem {d : Dict} {k : String} (v : JValue)
    (h : k ∉ dictKeys d) : dictKeys (setKey d k v) = dictKeys d ++ [k] := by
  induction d with
  | nil => simp [setKey, dictKeys]
  | cons hd tl ih =>
      have h1 : ¬ hd.1 = k := fun he => h (he ▸ List.mem_cons_self _ _)
      have h2 : k ∉ dictKeys tl := fun hm => h (List.mem_cons_of_mem _ hm)
      simp only [setKey, if_neg h1, dictKeys, List.map_cons, List.cons_append,
        List.cons.injEq, true_and]
      exact ih h2

theorem dictKeys_setKey_nodup {d : Dict} {k : String} (v : JValue)
    (hnd : (dictKeys d).Nodup) : (dictKeys (setKey d k v)).Nodup := by
  by_cases h : k ∈ dictKeys d
  · rw [dictKeys_setKey_of_mem d k v h]; exact hnd
  · rw [dictKeys_setKey_of_not_mem v h]
    simp [List.nodup_append, hnd, h]

theorem not_mem_keys_setKey {d : Dict} {k k' : String} (v : JValue)
    (h : k' ∉ dictKeys d) (hne : k' ≠ k) : k' ∉ dictKeys (setKey d k v) := by
  by_cases hk : k ∈ dictKeys d
  · rw [dictKeys_setKey_of_mem d k v hk]; exact h
  · rw [dictKeys_setKey_of_not_mem v hk]
    simp [h, hne]

theorem not_mem_keys_of_getKey_eq_none {d : Dict} {k : String}
    (h : getKey d k = none) : k ∉ dictKeys d := by
  induction d with
  | nil => simp [dictKeys]
  | cons hd tl ih =>
      by_cases hk : hd.1 = k
      · simp [getKey, hk] at h
      · simp only [getKey, if_neg hk] at h
        intro hmem
        rcases List.mem_cons.mp hmem with h1 | h1
        · exact hk h1.symm
        · exact ih h h1

theorem findOne_eq_none {p : Dict → Bool} {s : List Dict}
    (h : ∀ d ∈ s, p d = false) : findOne p s = none := by
  induction s with
  | nil => rfl
  | cons hd tl ih =>
      have h1 := h hd (List.mem_cons_self _ _)
      have h2 : ∀ d ∈ tl, p d = false := fun d hd2 => h d (List.mem_cons_of_mem _ hd2)
      simp [findOne, h1, ih h2]

theorem findOne_append_cons {p : Dict → Bool} {pre post : List Dict} {doc : Dict}
    (h : ∀ d ∈ pre, p d = false) (hdoc : p doc = true) :
    findOne p (pre ++ doc :: post) = some (pre.length, doc) := by
  induction pre with
  | nil => simp [findOne, hdoc]
  | cons hd tl ih =>
      have h1 := h hd (List.mem_cons_self _ _)
      have h2 : ∀ d ∈ tl, p d = false := fun d hd2 => h d (List.mem_cons_of_mem _ hd2)
      simp [findOne, h1, ih h2]

theorem set_append_cons (pre post : List Dict) (doc m : Dict) :
    (pre ++ doc :: post).set pre.length m = pre ++ m :: post := by
  induction pre with
  | nil => simp
  | cons hd tl ih => simp [List.set, ih]

/-! ### Lemmas about the merge loop -/

theorem mergeStep_preserves {existing merged : Dict} {k : String} {v : JValue}
    {m' : Dict} (h : mergeStep existing merged k v = some m') {q : String}
    (hne : q ≠ k) : getKey m' q = getKey merged q := by
  unfold mergeStep at h
  split at h
  · rw [Option.some.injEq] at h
    subst h
    exact getKey_setKey_other _ _ _ _ hne
  · split at h
    next hc2 =>
      have hk : k = "hours" := by
        have h2 : k = "hours" ∧ truthy v = true := by
          simpa [Bool.and_eq_true, beq_iff_eq] using hc2
        exact h2.1
      split at h
      · rw [Option.some.injEq] at h
        subst h
        exact getKey_setKey_other _ _ _ _ (hk ▸ hne)
      · exact absurd h (by simp)
    next =>
      split at h
      next hc3 =>
        have hk : k = "social_media" := by
          have h2 : k = "social_media" ∧ truthy v = true := by
            simpa [Bool.and_eq_true, beq_iff_eq] using hc3
          exact h2.1
        split at h
        · rw [Option.some.injEq] at h
          subst h
          exact getKey_setKey_other _ _ _ _ (hk ▸ hne)
        · exact absurd h (by simp)
      next =>
        rw [Option.some.injEq] at h
        subst h
        rfl

theorem mergeFields_notMem {existing : Dict} {l : List (String × JValue)}
    {merged m : Dict} {k : String}
    (h : mergeFields existing l merged = some m)
    (hk : k ∉ l.map Prod.fst) : getKey m k = getKey merged k := by
  induction l generalizing merged with
  | nil =>
      simp only [mergeFields, Option.some.injEq] at h
      subst h; rfl
  | cons kv rest ih =>
      obtain ⟨k', v⟩ := kv
      have hk1 : k ≠ k' := by
        intro he
        exact hk (by simp [he])
      have hk2 : k ∉ rest.map Prod.fst := by
        intro hm
        exact hk (by simp [hm])
      cases hstep : mergeStep existing merged k' v with
      | none => simp [mergeFields, hstep] at h
      | some m' =>
          simp only [mergeFields, hstep, Option.some_bind] at h
          rw [ih h hk2, mergeStep_preserves hstep hk1]

theorem mergeFields_overwrite {existing : Dict} {l : List (String × JValue)}
    {merged m : Dict} {k : String} {v : JValue}
    (hnd : (l.map Prod.fst).Nodup)
    (hmem : (k, v) ∈ l)
    (hcond : (truthy v && (!truthy (pyGet existing k) || k == "updated_at" ||
      k == "description")) = true)
    (h : mergeFields existing l merged = some m) :
    getKey m k = some v := by
  induction l generalizing merged with
  | nil => simp at hmem
  | cons kv rest ih =>
      obtain ⟨k', v'⟩ := kv
      cases hstep : mergeStep existing merged k' v' with
      | none => simp [mergeFields, hstep] at h
      | some m' =>
          simp only [mergeFields, hstep, Option.some_bind] at h
          rcases List.mem_cons.mp hmem with h1 | h1
          · injection h1 with e1 e2
            subst e1; subst e2
            have hs : mergeStep existing merged k v = some (setKey merged k v) := by
              unfold mergeStep
              rw [if_pos hcond]
            rw [hs, Option.some.injEq] at hstep
            subst hstep
            have hkr : k ∉ rest.map Prod.fst := (List.nodup_cons.mp hnd).1
            rw [mergeFields_notMem h hkr]
            exact getKey_setKey_self _ _ _
          · exact ih (List.nodup_cons.mp hnd).2 h1 h

theorem mergeFields_keep {existing : Dict} {l : List (String × JValue)}
    {merged m : Dict} {k : String}
    (hskip : ∀ v', (k, v') ∈ l →
      truthy v' = false ∨
      (truthy (pyGet existing k) = true ∧ k ≠ "updated_at" ∧ k ≠ "description" ∧
        k ≠ "hours" ∧ k ≠ "social_media"))
    (h : mergeFields existing l merged = some m) :
    getKey m k = getKey merged k := by
  induction l generalizing merged with
  | nil =>
      simp only [mergeFields, Option.some.injEq] at h
      subst h; rfl
  | cons kv rest ih =>
      obtain ⟨k', v'⟩ := kv
      cases hstep : mergeStep existing merged k' v' with
      | none => simp [mergeFields, hstep] at h
      | some m' =>
          simp only [mergeFields, hstep, Option.some_bind] at h
          have htail := ih (fun v'' hm => hskip v'' (List.mem_cons_of_mem _ hm)) h
          by_cases hke : k = k'
          · subst hke
            rcases hskip v' (List.mem_cons_self _ _) with hf | ⟨ht, h1, h2, h3, h4⟩
            · have hs : mergeStep existing merged k v' = some merged := by
                unfold mergeStep
                simp [hf]
              rw [hs, Option.some.injEq] at hstep
              subst hstep
              exact htail
            · have hb1 : (k == "updated_at") = false := beq_eq_false_iff_ne.mpr h1
              have hb2 : (k == "description") = false := beq_eq_false_iff_ne.mpr h2
              have hb3 : (k == "hours") = false := beq_eq_false_iff_ne.mpr h3
              have hb4 : (k == "social_media") = false := beq_eq_false_iff_ne.mpr h4
              have hs : mergeStep existing merged k v' = some merged := by
                unfold mergeStep
                simp [ht, hb1, hb2, hb3, hb4]
              rw [hs, Option.some.injEq] at hstep
              subst hstep
              exact htail
          · rw [htail, mergeStep_preserves hstep hke]

theorem mergeFields_hours {existing : Dict} {l : List (String × JValue)}
    {merged m : Dict} {v : JValue} {xs ys : Dict}
    (hnd : (l.map Prod.fst).Nodup)
    (hmem : ("hours", v) ∈ l)
    (ht : truthy v = true)
    (hex : truthy (pyGet existing "hours") = true)
    (hxs : pyGetD existing "hours" (.obj []) = .obj xs)
    (hys : v = .obj ys)
    (h : mergeFields existing l merged = some m) :
    getKey m "hours" = some (.obj (objUnion xs ys)) := by
  induction l generalizing merged with
  | nil => simp at hmem
  | cons kv rest ih =>
      obtain ⟨k', v'⟩ := kv
      cases hstep : mergeStep existing merged k' v' with
      | none => simp [mergeFields, hstep] at h
      | some m' =>
          simp only [mergeFields, hstep, Option.some_bind] at h
          rcases List.mem_cons.mp hmem with h1 | h1
          · injection h1 with e1 e2
            subst e1; subst e2
            have hs : mergeStep existing merged "hours" v =
                some (setKey merged "hours" (.obj (objUnion xs ys))) := by
              unfold mergeStep
              have c2 : ((("hours" : String) == "hours") && truthy v) = true := by
                simp [ht]
              rw [if_neg (by simp [ht, hex]), if_pos c2, hxs, hys]
            rw [hs, Option.some.injEq] at hstep
            subst hstep
            have hkr : "hours" ∉ rest.map Prod.fst := (List.nodup_cons.mp hnd).1
            rw [mergeFields_notMem h hkr]
            exact getKey_setKey_self _ _ _
          · exact ih (List.nodup_cons.mp hnd).2 h1 h

theorem mergeFields_social {existing : Dict} {l : List (String × JValue)}
    {merged m : Dict} {v : JValue} {xs ys : Dict}
    (hnd : (l.map Prod.fst).Nodup)
    (hmem : ("social_media", v) ∈ l)
    (ht : truthy v = true)
    (hex : truthy (pyGet existing "social_media") = true)
    (hxs : pyGetD existing "social_media" (.obj []) = .obj xs)
    (hys : v = .obj ys)
    (h : mergeFields existing l merged = some m) :
    getKey m "social_media" = some (.obj (objUnion xs ys)) := by
  induction l generalizing merged with
  | nil => simp at hmem
  | cons kv rest ih =>
      obtain ⟨k', v'⟩ := kv
      cases hstep : mergeStep existing merged k' v' with
      | none => simp [mergeFields, hstep] at h
      | some m' =>
          simp only [mergeFields, hstep, Option.some_bind] at h
          rcases List.mem_cons.mp hmem with h1 | h1
          · injection h1 with e1 e2
            subst e1; subst e2
            have hs : mergeStep existing merged "social_media" v =
                some (setKey merged "social_media" (.obj (objUnion xs ys))) := by
              unfold mergeStep
              have c3 : ((("social_media" : String) == "social_media") && truthy v) = true := by
                simp [ht]
              rw [if_neg (by simp [ht, hex]), if_neg (by simp), if_pos c3, hxs, hys]
            rw [hs, Option.some.injEq] at hstep
            subst hstep
            have hkr : "social_media" ∉ rest.map Prod.fst := (List.nodup_cons.mp hnd).1
            rw [mergeFields_notMem h hkr]
            exact getKey_setKey_self _ _ _
          · exact ih (List.nodup_cons.mp hnd).2 h1 h

theorem mergeFields_isSome {existing : Dict} (l : List (String × JValue))
    (merged : Dict)
    (hsafe : ∀ kv ∈ l, (kv.1 = "hours" ∨ kv.1 = "social_media") →
      truthy kv.2 = true → truthy (pyGet existing kv.1) = true →
      (∃ xs, pyGetD existing kv.1 (.obj []) = .obj xs) ∧ (∃ ys, kv.2 = .obj ys)) :
    (mergeFields existing l merged).isSome = true := by
  induction l generalizing merged with
  | nil => simp [mergeFields]
  | cons kv rest ih =>
      obtain ⟨k, v⟩ := kv
      have hstep : (mergeStep existing merged k v).isSome = true := by
        unfold mergeStep
        split
        · simp
        next hc1 =>
          split
          next hc2 =>
            have hc2' : k = "hours" ∧ truthy v = true := by
              simpa [Bool.and_eq_true, beq_iff_eq] using hc2
            obtain ⟨hk, htv⟩ := hc2'
            have hext : truthy (pyGet existing k) = true := by
              by_contra hne
              have hf : truthy (pyGet existing k) = false := by
                revert hne
                cases truthy (pyGet existing k) <;> simp
              exact hc1 (by simp [htv, hf])
            obtain ⟨⟨xs, hxs⟩, ⟨ys, hys⟩⟩ :=
              hsafe (k, v) (List.mem_cons_self _ _) (Or.inl hk) htv hext
            subst hk
            replace hxs : pyGetD existing "hours" (.obj []) = .obj xs := hxs
            replace hys : v = .obj ys := hys
            rw [hxs, hys]
            simp
          next =>
            split
            next hc3 =>
              have hc3' : k = "social_media" ∧ truthy v = true := by
                simpa [Bool.and_eq_true, beq_iff_eq] using hc3
              obtain ⟨hk, htv⟩ := hc3'
              have hext : truthy (pyGet existing k) = true := by
                by_contra hne
                have hf : truthy (pyGet existing k) = false := by
                  revert hne
                  cases truthy (pyGet existing k) <;> simp
                exact hc1 (by simp [htv, hf])
              obtain ⟨⟨xs, hxs⟩, ⟨ys, hys⟩⟩ :=
                hsafe (k, v) (List.mem_cons_self _ _) (Or.inr hk) htv hext
              subst hk
              replace hxs : pyGetD existing "social_media" (.obj []) = .obj xs := hxs
              replace hys : v = .obj ys := hys
              rw [hxs, hys]
              simp
            next => simp
      cases hstepv : mergeStep existing merged k v with
      | none => rw [hstepv] at hstep; simp at hstep
      | some m' =>
          simp only [mergeFields, hstepv, Option.some_bind]
          exact ih m' (fun kv2 hm => hsafe kv2 (List.mem_cons_of_mem _ hm))

/-- Lookup in a Python dict union: a key present in the right dict takes its
value from there; otherwise the left dict is consulted. -/
theorem getKey_objUnion (xs ys : Dict) (k : String)
    (hnd : (dictKeys ys).Nodup) :
    getKey (objUnion xs ys) k =
      match getKey ys k with
      | some v => some v
      | none => getKey xs k := by
  induction ys generalizing xs with
  | nil => simp [objUnion, getKey]
  | cons hd tl ih =>
      obtain ⟨k', v'⟩ := hd
      have hnd' : (dictKeys tl).Nodup := (List.nodup_cons.mp hnd).2
      have hstep : objUnion xs ((k', v') :: tl) = objUnion (setKey xs k' v') tl := rfl
      rw [hstep, ih _ hnd']
      by_cases hk : k' = k
      · subst hk
        have hno : getKey tl k' = none :=
          getKey_eq_none_of_not_mem (List.nodup_cons.mp hnd).1
        simp [getKey, hno, getKey_setKey_self]
      · simp [getKey, hk, getKey_setKey_other xs k' k v' (fun h => hk h.symm)]

/-! ### Lemmas about one save round -/

theorem truthy_pyGet_some {d : Dict} {k : String}
    (h : truthy (pyGet d k) = true) :
    ∃ v, getKey d k = some v ∧ truthy v = true := by
  unfold pyGet at h
  cases hg : getKey d k with
  | none => rw [hg] at h; simp [truthy] at h
  | some v =>
      rw [hg] at h
      exact ⟨v, rfl, h⟩

theorem getKey_stampEntity (E : Dict) (now st : JValue) (k : String)
    (h1 : k ≠ "updated_at") (h2 : k ≠ "source_type") :
    getKey (stampEntity now st E) k = getKey E k := by
  unfold stampEntity
  rw [getKey_setKey_other _ _ _ _ h2, getKey_setKey_other _ _ _ _ h1]

theorem pyGet_stampEntity (E : Dict) (now st : JValue) (k : String)
    (h1 : k ≠ "updated_at") (h2 : k ≠ "source_type") :
    pyGet (stampEntity now st E) k = pyGet E k := by
  unfold pyGet
  rw [getKey_stampEntity E now st k h1 h2]

theorem stampEntity_keys_nodup {E : Dict} (now st : JValue)
    (hnodup : (dictKeys E).Nodup) :
    (dictKeys (stampEntity now st E)).Nodup :=
  dictKeys_setKey_nodup _ (dictKeys_setKey_nodup _ hnodup)

theorem matchesNameAddress_stampEntity (E doc : Dict) (now st : JValue) :
    matchesNameAddress (stampEntity now st E) doc = matchesNameAddress E doc := by
  unfold matchesNameAddress
  rw [pyGet_stampEntity E now st "name" (by decide) (by decide),
    pyGet_stampEntity E now st "address" (by decide) (by decide)]

/-- Insert path of `save_businesses` for a single entity with a truthy
name and address that matches nothing in the collection. -/
theorem saveBusinesses_insert (E : Dict) (s0 : List Dict) (now st : JValue)
    (hname : truthy (pyGet E "name") = true)
    (haddr : truthy (pyGet E "address") = true)
    (hs0 : ∀ doc ∈ s0, matchesNameAddress E doc = false) :
    saveBusinesses now st s0 [E] =
      some ⟨s0 ++ [setKey (stampEntity now st E) "created_at" now], 1, 0⟩ := by
  have hbn : pyGet (stampEntity now st E) "name" = pyGet E "name" :=
    pyGet_stampEntity E now st "name" (by decide) (by decide)
  have hba : pyGet (stampEntity now st E) "address" = pyGet E "address" :=
    pyGet_stampEntity E now st "address" (by decide) (by decide)
  have hcond : (truthy (pyGet (stampEntity now st E) "name") &&
      truthy (pyGet (stampEntity now st E) "address")) = true := by
    rw [hbn, hba, hname, haddr]
    rfl
  have hfind : findOne (matchesNameAddress (stampEntity now st E)) s0 = none := by
    apply findOne_eq_none
    intro d hd
    rw [matchesNameAddress_stampEntity]
    exact hs0 d hd
  have hsave : saveOneBusiness now st s0 E =
      some (s0 ++ [setKey (stampEntity now st E) "created_at" now], true) := by
    simp only [saveOneBusiness]
    rw [if_pos hcond, hfind]
  simp [saveBusinesses, saveBusinessesLoop, hsave]

/-- Merge-update path of `save_businesses` for a single entity with a
truthy name and address whose first identity match in the collection is
`doc`, assuming the merge itself completes. -/
theorem saveBusinesses_update (E doc m : Dict) (pre post : List Dict)
    (now st : JValue)
    (hname : truthy (pyGet E "name") = true)
    (haddr : truthy (pyGet E "address") = true)
    (hpre : ∀ d ∈ pre, matchesNameAddress E d = false)
    (hdoc : matchesNameAddress E doc = true)
    (hm : mergeBusinessData doc (stampEntity now st E) = some m) :
    saveBusinesses now st (pre ++ doc :: post) [E] =
      some ⟨pre ++ m :: post, 0, 1⟩ := by
  have hbn : pyGet (stampEntity now st E) "name" = pyGet E "name" :=
    pyGet_stampEntity E now st "name" (by decide) (by decide)
  have hba : pyGet (stampEntity now st E) "address" = pyGet E "address" :=
    pyGet_stampEntity E now st "address" (by decide) (by decide)
  have hcond : (truthy (pyGet (stampEntity now st E) "name") &&
      truthy (pyGet (stampEntity now st E) "address")) = true := by
    rw [hbn, hba, hname, haddr]
    rfl
  have hfind : findOne (matchesNameAddress (stampEntity now st E))
      (pre ++ doc :: post) = some (pre.length, doc) := by
    apply findOne_append_cons
    · intro d hd
      rw [matchesNameAddress_stampEntity]
      exact hpre d hd
    · rw [matchesNameAddress_stampEntity]
      exact hdoc
  have hsave : saveOneBusiness now st (pre ++ doc :: post) E =
      some ((pre ++ doc :: post).set pre.length m, false) := by
    simp only [saveOneBusiness]
    rw [if_pos hcond, hfind]
    simp [hm]
  rw [set_append_cons] at hsave
  simp [saveBusinesses, saveBusinessesLoop, hsave]

/-- The merge of a stamped entity completes (Python raises no `TypeError`)
when every truthy `hours` / `social_media` value involved is a dict. -/
theorem merge_stamp_isSome (doc E : Dict) (now st : JValue)
    (hnodup : (dictKeys E).Nodup)
    (hhours : truthy (pyGet E "hours") = true →
      truthy (pyGet doc "hours") = true →
      (∃ xs, pyGetD doc "hours" (.obj []) = .obj xs) ∧
      (∃ ys, pyGet E "hours" = .obj ys))
    (hsocial : truthy (pyGet E "social_media") = true →
      truthy (pyGet doc "social_media") = true →
      (∃ xs, pyGetD doc "social_media" (.obj []) = .obj xs) ∧
      (∃ ys, pyGet E "social_media" = .obj ys)) :
    (mergeBusinessData doc (stampEntity now st E)).isSome = true := by
  apply mergeFields_isSome
  rintro ⟨kk, vv⟩ hmem hor htv hext
  have hnd := stampEntity_keys_nodup (E := E) now st hnodup
  have hget : getKey (stampEntity now st E) kk = some vv :=
    getKey_eq_some_of_mem_nodup hnd hmem
  rcases hor with hk | hk
  all_goals subst hk
  · have hgetE : getKey E "hours" = some vv := by
      rw [← getKey_stampEntity E now st "hours" (by decide) (by decide)]
      exact hget
    have hpy : pyGet E "hours" = vv := by
      unfold pyGet
      rw [hgetE]
      rfl
    simp only at htv hext
    obtain ⟨⟨xs, hxs⟩, ⟨ys, hys⟩⟩ := hhours (by rw [hpy]; exact htv) hext
    exact ⟨⟨xs, hxs⟩, ⟨ys, by rw [← hpy]; exact hys⟩⟩
  · have hgetE : getKey E "social_media" = some vv := by
      rw [← getKey_stampEntity E now st "social_media" (by decide) (by decide)]
      exact hget
    have hpy : pyGet E "social_media" = vv := by
      unfold pyGet
      rw [hgetE]
      rfl
    simp only at htv hext
    obtain ⟨⟨xs, hxs⟩, ⟨ys, hys⟩⟩ := hsocial (by rw [hpy]; exact htv) hext
    exact ⟨⟨xs, hxs⟩, ⟨ys, by rw [← hpy]; exact hys⟩⟩

/-! ## Claim C1: saving the same entity twice -/

/-- Claim C1, counterexample: for the entity `{name: A, address: X,
hours: "9am-5pm"}` (a name and an address are both present), the first
save against an empty store inserts one record, but the second save of the
same entity does not report `saved=0, updated=1`: the merge path raises a
`TypeError` (modelled as `none`) on the free-text `hours` value. -/
theorem c1_counterexample :
    saveBusinesses (JValue.str "t1") (JValue.str "website") [] [c1BadEntity] =
      some ⟨[c1BadStored], 1, 0⟩ ∧
    saveBusinesses (JValue.str "t2") (JValue.str "website") [c1BadStored]
      [c1BadEntity] = none :=
  ⟨rfl, rfl⟩

/-- Claim C1, amended: for every business entity `E` with a truthy name and
address whose truthy `hours`/`social_media` values (if any) are dicts,
saving `[E]` twice against a store that holds no record with `E`'s
`(name, address)` identity leaves exactly one record with that identity;
the first call reports `saved=1, updated=0` and the second takes the merge
path and reports `saved=0, updated=1`. -/
theorem c1_save_twice_idempotent
    (E : Dict) (s0 : List Dict) (now1 now2 st1 st2 : JValue)
    (hnodup : (dictKeys E).Nodup)
    (hname : truthy (pyGet E "name") = true)
    (haddr : truthy (pyGet E "address") = true)
    (hs0 : ∀ doc ∈ s0, matchesNameAddress E doc = false)
    (hhours : truthy (pyGet E "hours") = true →
      ∃ fs, pyGet E "hours" = JValue.obj fs)
    (hsocial : truthy (pyGet E "social_media") = true →
      ∃ fs, pyGet E "social_media" = JValue.obj fs) :
    ∃ s1 s2 : List Dict,
      saveBusinesses now1 st1 s0 [E] = some ⟨s1, 1, 0⟩ ∧
      saveBusinesses now2 st2 s1 [E] = some ⟨s2, 0, 1⟩ ∧
      countNameAddressMatches E s2 = 1 := by
  have h1 := saveBusinesses_insert E s0 now1 st1 hname haddr hs0
  set d1 := setKey (stampEntity now1 st1 E) "created_at" now1 with hd1def
  have hd1get : ∀ k, k ≠ "updated_at" → k ≠ "source_type" → k ≠ "created_at" →
      getKey d1 k = getKey E k := by
    intro k hk1 hk2 hk3
    rw [hd1def, getKey_setKey_other _ _ _ _ hk3,
      getKey_stampEntity E now1 st1 k hk1 hk2]
  have hd1name : pyGet d1 "name" = pyGet E "name" := by
    unfold pyGet
    rw [hd1get "name" (by decide) (by decide) (by decide)]
  have hd1addr : pyGet d1 "address" = pyGet E "address" := by
    unfold pyGet
    rw [hd1get "address" (by decide) (by decide) (by decide)]
  have hd1hours : getKey d1 "hours" = getKey E "hours" :=
    hd1get _ (by decide) (by decide) (by decide)
  have hd1social : getKey d1 "social_media" = getKey E "social_media" :=
    hd1get _ (by decide) (by decide) (by decide)
  have hdoc : matchesNameAddress E d1 = true := by
    unfold matchesNameAddress
    rw [hd1name, hd1addr]
    simp [JValue.beq_refl]
  have hms : (mergeBusinessData d1 (stampEntity now2 st2 E)).isSome = true := by
    apply merge_stamp_isSome d1 E now2 st2 hnodup
    · intro hE _
      obtain ⟨fs, hfs⟩ := hhours hE
      obtain ⟨v, hv, _⟩ := truthy_pyGet_some hE
      have hveq : v = JValue.obj fs := by
        have hpy : pyGet E "hours" = v := by
          unfold pyGet
          rw [hv]
          rfl
        rw [hpy] at hfs
        exact hfs
      constructor
      · refine ⟨fs, ?_⟩
        unfold pyGetD
        rw [hd1hours, hv, hveq]
        rfl
      · exact ⟨fs, hfs⟩
    · intro hE _
      obtain ⟨fs, hfs⟩ := hsocial hE
      obtain ⟨v, hv, _⟩ := truthy_pyGet_some hE
      have hveq : v = JValue.obj fs := by
        have hpy : pyGet E "social_media" = v := by
          unfold pyGet
          rw [hv]
          rfl
        rw [hpy] at hfs
        exact hfs
      constructor
      · refine ⟨fs, ?_⟩
        unfold pyGetD
        rw [hd1social, hv, hveq]
        rfl
      · exact ⟨fs, hfs⟩
  cases hmm : mergeBusinessData d1 (stampEntity now2 st2 E) with
  | none => rw [hmm] at hms; simp at hms
  | some m =>
      have h2 := saveBusinesses_update E d1 m s0 [] now2 st2 hname haddr hs0
        hdoc hmm
      refine ⟨s0 ++ [d1], s0 ++ [m], h1, h2, ?_⟩
      have hmm' : mergeFields d1 (stampEntity now2 st2 E) d1 = some m := hmm
      have htrn : truthy (pyGet d1 "name") = true := by
        rw [hd1name]; exact hname
      have htra : truthy (pyGet d1 "address") = true := by
        rw [hd1addr]; exact haddr
      have hmname : getKey m "name" = getKey d1 "name" :=
        mergeFields_keep
          (fun v' _ =>
            Or.inr ⟨htrn, by decide, by decide, by decide, by decide⟩) hmm'
      have hmaddr : getKey m "address" = getKey d1 "address" :=
        mergeFields_keep
          (fun v' _ =>
            Or.inr ⟨htra, by decide, by decide, by decide, by decide⟩) hmm'
      have hmatchm : matchesNameAddress E m = true := by
        unfold matchesNameAddress pyGet
        rw [hmname, hmaddr]
        unfold pyGet at hd1name hd1addr
        rw [hd1name, hd1addr]
        simp [JValue.beq_refl]
      unfold countNameAddressMatches
      rw [List.filter_append]
      have hnil : s0.filter (matchesNameAddress E) = [] := by
        rw [List.filter_eq_nil_iff]
        intro d hd
        simp [hs0 d hd]
      rw [hnil]
      simp [hmatchm]

/-- Claim C1, witness: the amended theorem applied to the concrete entity
`{name: B, address: Y}` against an empty store. -/
theorem c1_witness :
    ∃ s1 s2 : List Dict,
      saveBusinesses (JValue.str "t1") (JValue.str "website") []
        [[("name", JValue.str "B"), ("address", JValue.str "Y")]] =
        some ⟨s1, 1, 0⟩ ∧
      saveBusinesses (JValue.str "t2") (JValue.str "website") s1
        [[("name", JValue.str "B"), ("address", JValue.str "Y")]] =
        some ⟨s2, 0, 1⟩ ∧
      countNameAddressMatches
        [("name", JValue.str "B"), ("address", JValue.str "Y")] s2 = 1 :=
  c1_save_twice_idempotent
    [("name", JValue.str "B"), ("address", JValue.str "Y")] []
    (JValue.str "t1") (JValue.str "t2") (JValue.str "website")
    (JValue.str "website")
    (by decide) (by decide) (by decide) (by simp)
    (fun h => absurd h (by decide)) (fun h => absurd h (by decide))

/-! ## Claim C2: the merge loses no previously captured field -/

/-- Claim C2: when `save_businesses` merges an incoming entity `E` into a
stored record `doc` of the same `(name, address)` identity, a truthy field
`k1` of `doc` that `E` omits survives unchanged, and a truthy field `k2` of
`E` that `doc` lacks is written; both values appear in the merged record
that the update writes back. -/
theorem c2_merge_preserves_both_fields
    (E doc : Dict) (pre post : List Dict) (now st : JValue)
    (k1 k2 : String) (v2 : JValue)
    (hnodup : (dictKeys E).Nodup)
    (hname : truthy (pyGet E "name") = true)
    (haddr : truthy (pyGet E "address") = true)
    (hpre : ∀ d ∈ pre, matchesNameAddress E d = false)
    (hdoc : matchesNameAddress E doc = true)
    (hk1absent : getKey E k1 = none)
    (hk1a : k1 ≠ "updated_at") (hk1b : k1 ≠ "source_type")
    (hk2 : getKey E k2 = some v2)
    (hv2 : truthy v2 = true)
    (hk2stored : truthy (pyGet doc k2) = false)
    (hk2a : k2 ≠ "updated_at") (hk2b : k2 ≠ "source_type")
    (hhours : truthy (pyGet E "hours") = true →
      truthy (pyGet doc "hours") = true →
      (∃ xs, pyGetD doc "hours" (.obj []) = .obj xs) ∧
      (∃ ys, pyGet E "hours" = .obj ys))
    (hsocial : truthy (pyGet E "social_media") = true →
      truthy (pyGet doc "social_media") = true →
      (∃ xs, pyGetD doc "social_media" (.obj []) = .obj xs) ∧
      (∃ ys, pyGet E "social_media" = .obj ys)) :
    ∃ m : Dict,
      saveBusinesses now st (pre ++ doc :: post) [E] =
        some ⟨pre ++ m :: post, 0, 1⟩ ∧
      getKey m k1 = getKey doc k1 ∧
      getKey m k2 = some v2 := by
  have hms : (mergeBusinessData doc (stampEntity now st E)).isSome = true :=
    merge_stamp_isSome doc E now st hnodup hhours hsocial
  cases hmm : mergeBusinessData doc (stampEntity now st E) with
  | none => rw [hmm] at hms; simp at hms
  | some m =>
      have hmm' : mergeFields doc (stampEntity now st E) doc = some m := hmm
      have hbk1 : getKey (stampEntity now st E) k1 = none := by
        rw [getKey_stampEntity E now st k1 hk1a hk1b]
        exact hk1absent
      have hbk2 : getKey (stampEntity now st E) k2 = some v2 := by
        rw [getKey_stampEntity E now st k2 hk2a hk2b]
        exact hk2
      refine ⟨m, saveBusinesses_update E doc m pre post now st hname haddr
        hpre hdoc hmm, ?_, ?_⟩
      · exact mergeFields_notMem hmm' (not_mem_keys_of_getKey_eq_none hbk1)
      · apply mergeFields_overwrite (stampEntity_keys_nodup now st hnodup)
          (mem_of_getKey_eq_some hbk2) ?_ hmm'
        simp [hv2, hk2stored]

/-- Claim C2, witness: stored `{name: A, address: X, phone: 123}` merged
with incoming `{name: A, address: X, website: a.com}` keeps the phone and
gains the website. -/
theorem c2_witness :
    ∃ m : Dict,
      saveBusinesses (JValue.str "t") (JValue.str "website")
        ([] ++ [("name", JValue.str "A"), ("address", JValue.str "X"),
          ("phone", JValue.str "123")] :: [])
        [[("name", JValue.str "A"), ("address", JValue.str "X"),
          ("website", JValue.str "a.com")]] =
        some ⟨[] ++ m :: [], 0, 1⟩ ∧
      getKey m "phone" =
        getKey [("name", JValue.str "A"), ("address", JValue.str "X"),
          ("phone", JValue.str "123")] "phone" ∧
      getKey m "website" = some (JValue.str "a.com") :=
  c2_merge_preserves_both_fields
    [("name", JValue.str "A"), ("address", JValue.str "X"),
      ("website", JValue.str "a.com")]
    [("name", JValue.str "A"), ("address", JValue.str "X"),
      ("phone", JValue.str "123")]
    [] [] (JValue.str "t") (JValue.str "website")
    "phone" "website" (JValue.str "a.com")
    (by decide) (by decide) (by decide) (by simp) (by decide)
    rfl (by decide) (by decide) rfl (by decide)
    (by decide) (by decide) (by decide)
    (fun h => absurd h (by decide)) (fun h => absurd h (by decide))

/-! ## Claim C3: what the merge overwrites -/

/-- Claim C3, counterexample: incoming `{name: A, address: X, phone: 456}`
merged into stored `{name: A, address: X, phone: 123}` does not overwrite
the non-null stored phone: the merged record still carries `123`, not the
incoming `456`. -/
theorem c3_counterexample :
    mergeBusinessData
      [("name", .str "A"), ("address", .str "X"), ("phone", .str "123")]
      [("name", .str "A"), ("address", .str "X"), ("phone", .str "456")] =
      some [("name", .str "A"), ("address", .str "X"), ("phone", .str "123")] ∧
    JValue.str "123" ≠ JValue.str "456" := by
  constructor
  · rfl
  · intro h
    injection h with h2
    exact absurd h2 (by decide)

/-- Claim C3, amended: in `_merge_business_data`, a truthy incoming value
fills a field whose stored value is falsy and always wins for
`updated_at`/`description`; for any other field whose stored value is also
truthy the stored value is kept (the incoming scalar does not overwrite);
truthy dict-valued `hours` and `social_media` are merged key-wise with
incoming keys overriding stored keys. -/
theorem c3_merge_field_semantics
    (existing new m : Dict)
    (hnodup : (dictKeys new).Nodup)
    (hm : mergeBusinessData existing new = some m) :
    (∀ k v, (k, v) ∈ new → truthy v = true →
      truthy (pyGet existing k) = false → getKey m k = some v) ∧
    (∀ k v, (k, v) ∈ new → truthy v = true →
      (k = "updated_at" ∨ k = "description") → getKey m k = some v) ∧
    (∀ k v, (k, v) ∈ new → truthy v = true →
      truthy (pyGet existing k) = true →
      k ≠ "updated_at" → k ≠ "description" → k ≠ "hours" →
      k ≠ "social_media" → getKey m k = getKey existing k) ∧
    (∀ v xs ys, ("hours", v) ∈ new → truthy v = true →
      truthy (pyGet existing "hours") = true →
      pyGetD existing "hours" (.obj []) = .obj xs → v = .obj ys →
      getKey m "hours" = some (.obj (objUnion xs ys))) ∧
    (∀ v xs ys, ("social_media", v) ∈ new → truthy v = true →
      truthy (pyGet existing "social_media") = true →
      pyGetD existing "social_media" (.obj []) = .obj xs → v = .obj ys →
      getKey m "social_media" = some (.obj (objUnion xs ys))) ∧
    (∀ xs ys k, (dictKeys ys).Nodup →
      getKey (objUnion xs ys) k =
        match getKey ys k with
        | some w => some w
        | none => getKey xs k) := by
  have hm' : mergeFields existing new existing = some m := hm
  refine ⟨?_, ?_, ?_, ?_, ?_, ?_⟩
  · intro k v hmem htv hfalse
    exact mergeFields_overwrite hnodup hmem (by simp [htv, hfalse]) hm'
  · intro k v hmem htv hsp
    apply mergeFields_overwrite hnodup hmem ?_ hm'
    rcases hsp with h | h
    all_goals subst h
    all_goals simp [htv]
  · intro k v hmem htv htrue h1 h2 h3 h4
    exact mergeFields_keep (fun v' _ => Or.inr ⟨htrue, h1, h2, h3, h4⟩) hm'
  · intro v xs ys hmem htv htrue hxs hys
    exact mergeFields_hours hnodup hmem htv htrue hxs hys hm'
  · intro v xs ys hmem htv htrue hxs hys
    exact mergeFields_social hnodup hmem htv htrue hxs hys hm'
  · intro xs ys k hnd
    exact getKey_objUnion xs ys k hnd

/-- Claim C3, witness: the amended characterization applied to stored
`{phone: 123, description: old, hours: {mon: 9}}` and incoming
`{phone: 456, description: fresh, website: w, hours: {tue: 8}}`. -/
theorem c3_witness :
    (∀ k v, (k, v) ∈ c3New → truthy v = true →
      truthy (pyGet c3Existing k) = false → getKey c3Merged k = some v) ∧
    (∀ k v, (k, v) ∈ c3New → truthy v = true →
      (k = "updated_at" ∨ k = "description") → getKey c3Merged k = some v) ∧
    (∀ k v, (k, v) ∈ c3New → truthy v = true →
      truthy (pyGet c3Existing k) = true →
      k ≠ "updated_at" → k ≠ "description" → k ≠ "hours" →
      k ≠ "social_media" → getKey c3Merged k = getKey c3Existing k) ∧
    (∀ v xs ys, ("hours", v) ∈ c3New → truthy v = true →
      truthy (pyGet c3Existing "hours") = true →
      pyGetD c3Existing "hours" (.obj []) = .obj xs → v = .obj ys →
      getKey c3Merged "hours" = some (.obj (objUnion xs ys))) ∧
    (∀ v xs ys, ("social_media", v) ∈ c3New → truthy v = true →
      truthy (pyGet c3Existing "social_media") = true →
      pyGetD c3Existing "social_media" (.obj []) = .obj xs → v = .obj ys →
      getKey c3Merged "social_media" = some (.obj (objUnion xs ys))) ∧
    (∀ xs ys k, (dictKeys ys).Nodup →
      getKey (objUnion xs ys) k =
        match getKey ys k with
        | some w => some w
        | none => getKey xs k) :=
  c3_merge_field_semantics c3Existing c3New c3Merged (by decide) rfl

/-! ### Lemmas about the extraction service -/

theorem websiteShape_stdError (r u : String) :
    websiteShape (createStandardizedErrorResponse "website" r u) = true := rfl

theorem searchShape_stdError (r u : String) :
    searchShape (createStandardizedErrorResponse "search" r u) = true := rfl

theorem websiteShape_dump (m : WebsiteExtractionResult) :
    websiteShape m.dump = true := rfl

theorem searchShape_dump (m : SearchExtractionResult) :
    searchShape m.dump = true := rfl

theorem websiteShape_validateAndDump (j : JValue) (failMsg u : String) :
    websiteShape (validateAndDump "website" j failMsg u) = true := by
  unfold validateAndDump
  rw [if_pos (show (("website" == "website") = true) from rfl)]
  cases parseWebsiteExtractionResult j with
  | none => exact websiteShape_stdError _ _
  | some model => exact websiteShape_dump model

theorem searchShape_validateAndDump (j : JValue) (failMsg u : String) :
    searchShape (validateAndDump "search" j failMsg u) = true := by
  unfold validateAndDump
  rw [if_neg (show ¬ (("search" == "website") = true) by decide)]
  cases parseSearchExtractionResult j with
  | none => exact searchShape_stdError _ _
  | some model => exact searchShape_dump model

theorem websiteShape_processExtractionResult
    (parseJson : String → Option JValue) (c u : String) :
    websiteShape (processExtractionResult "website" parseJson c u) = true := by
  cases hp : parseJson c with
  | none =>
      simp only [processExtractionResult, hp]
      exact websiteShape_stdError _ _
  | some parsed =>
      simp only [processExtractionResult, hp]
      cases parsed with
      | arr items =>
          cases items with
          | nil => exact websiteShape_stdError _ _
          | cons first rest =>
              by_cases hv : isValidSchemaStructure "website" first = true
              · simp only [if_pos hv]
                exact websiteShape_validateAndDump _ _ _
              · simp only [if_neg hv]
                exact websiteShape_stdError _ _
      | null => exact websiteShape_validateAndDump _ _ _
      | bool b => exact websiteShape_validateAndDump _ _ _
      | num n => exact websiteShape_validateAndDump _ _ _
      | str s => exact websiteShape_validateAndDump _ _ _
      | obj fs => exact websiteShape_validateAndDump _ _ _

theorem searchShape_processExtractionResult
    (parseJson : String → Option JValue) (c u : String) :
    searchShape (processExtractionResult "search" parseJson c u) = true := by
  cases hp : parseJson c with
  | none =>
      simp only [processExtractionResult, hp]
      exact searchShape_stdError _ _
  | some parsed =>
      simp only [processExtractionResult, hp]
      cases parsed with
      | arr items =>
          cases items with
          | nil => exact searchShape_stdError _ _
          | cons first rest =>
              by_cases hv : isValidSchemaStructure "search" first = true
              · simp only [if_pos hv]
                exact searchShape_validateAndDump _ _ _
              · simp only [if_neg hv]
                exact searchShape_stdError _ _
      | null => exact searchShape_validateAndDump _ _ _
      | bool b => exact searchShape_validateAndDump _ _ _
      | num n => exact searchShape_validateAndDump _ _ _
      | str s => exact searchShape_validateAndDump _ _ _
      | obj fs => exact searchShape_validateAndDump _ _ _

theorem websiteShape_crawl4aiLoop (parseJson : String → Option JValue)
    (arun : Nat → CrawlOutcome) (u : String) :
    ∀ (fuel attempt : Nat),
      websiteShape (extractViaCrawl4aiLoop "website" parseJson arun u
        attempt fuel) = true
  | 0, attempt => by
      simp only [extractViaCrawl4aiLoop]
      cases arun attempt with
      | success c => exact websiteShape_processExtractionResult _ _ _
      | failure e => exact websiteShape_stdError _ _
      | raised e => exact websiteShape_stdError _ _
  | fuel + 1, attempt => by
      simp only [extractViaCrawl4aiLoop]
      cases arun attempt with
      | success c => exact websiteShape_processExtractionResult _ _ _
      | failure e => exact websiteShape_crawl4aiLoop parseJson arun u fuel (attempt + 1)
      | raised e => exact websiteShape_stdError _ _

theorem searchShape_crawl4aiLoop (parseJson : String → Option JValue)
    (arun : Nat → CrawlOutcome) (u : String) :
    ∀ (fuel attempt : Nat),
      searchShape (extractViaCrawl4aiLoop "search" parseJson arun u
        attempt fuel) = true
  | 0, attempt => by
      simp only [extractViaCrawl4aiLoop]
      cases arun attempt with
      | success c => exact searchShape_processExtractionResult _ _ _
      | failure e => exact searchShape_stdError _ _
      | raised e => exact searchShape_stdError _ _
  | fuel + 1, attempt => by
      simp only [extractViaCrawl4aiLoop]
      cases arun attempt with
      | success c => exact searchShape_processExtractionResult _ _ _
      | failure e => exact searchShape_crawl4aiLoop parseJson arun u fuel (attempt + 1)
      | raised e => exact searchShape_stdError _ _

/-! ## Claim C6: schema-stable result shape -/

/-- Claim C6, counterexample: the direct-API path validates an LLM response
whose `metadata.result.success` is false while `entities` is non-empty —
the schema never ties the two — so `success=false` does not force an empty
list on a validated response. -/
theorem c6_counterexample :
    isSuccessful (extractViaDirectApi "website" c6Parse
      (.ok "resp") "u") = false ∧
    getKey (extractViaDirectApi "website" c6Parse (.ok "resp") "u")
      "entities" = some (.arr [c6Entity.dump]) ∧
    JValue.arr [c6Entity.dump] ≠ JValue.arr [] := by
  refine ⟨rfl, rfl, ?_⟩
  intro h
  injection h with h2
  exact absurd h2 (by simp)

/-- Claim C6, amended: every result the extraction service produces —
through the direct-API path, the Crawl4AI path with any number of
retries, or as a standardized error envelope — carries every key of its
schema variant; the error envelopes the service itself creates have
`success=false` and the corresponding list (`entities`/`urls`) present
and empty.  (A schema-validated LLM response may pair `success=false`
with a non-empty list, so emptiness is guaranteed only for the
service-generated envelopes.) -/
theorem c6_shape_stable
    (parseJson : String → Option JValue)
    (llmCompletion : Except String String) (arun : Nat → CrawlOutcome)
    (sourceUrl errorReason : String) (maxRetryAttempts : Nat) :
    websiteShape (extractViaDirectApi "website" parseJson llmCompletion
      sourceUrl) = true ∧
    searchShape (extractViaDirectApi "search" parseJson llmCompletion
      sourceUrl) = true ∧
    websiteShape (extractViaCrawl4ai "website" parseJson arun sourceUrl
      maxRetryAttempts) = true ∧
    searchShape (extractViaCrawl4ai "search" parseJson arun sourceUrl
      maxRetryAttempts) = true ∧
    isSuccessful (createStandardizedErrorResponse "website" errorReason
      sourceUrl) = false ∧
    getKey (createStandardizedErrorResponse "website" errorReason sourceUrl)
      "entities" = some (.arr []) ∧
    isSuccessful (createStandardizedErrorResponse "search" errorReason
      sourceUrl) = false ∧
    getKey (createStandardizedErrorResponse "search" errorReason sourceUrl)
      "urls" = some (.arr []) := by
  refine ⟨?_, ?_, ?_, ?_, rfl, rfl, rfl, rfl⟩
  · cases llmCompletion with
    | error e => exact websiteShape_stdError _ _
    | ok raw =>
        cases hp : parseJson raw with
        | none =>
            simp only [extractViaDirectApi, hp]
            exact websiteShape_stdError _ _
        | some parsed =>
            simp only [extractViaDirectApi, hp]
            exact websiteShape_validateAndDump _ _ _
  · cases llmCompletion with
    | error e => exact searchShape_stdError _ _
    | ok raw =>
        cases hp : parseJson raw with
        | none =>
            simp only [extractViaDirectApi, hp]
            exact searchShape_stdError _ _
        | some parsed =>
            simp only [extractViaDirectApi, hp]
            exact searchShape_validateAndDump _ _ _
  · exact websiteShape_crawl4aiLoop parseJson arun sourceUrl maxRetryAttempts 0
  · exact searchShape_crawl4aiLoop parseJson arun sourceUrl maxRetryAttempts 0

/-! ## Claim C5: cross-method fallback -/

/-- Claim C5: per item, if the primary method's result has
`result.success=false` the other method is invoked exactly once and its
result returned; if the primary result is successful the other method is
never invoked. -/
theorem c5_fallback_behavior (crawl4ai direct : Dict → Dict) (item : Dict) :
    (isSuccessful (direct item) = false →
      processItem "direct" crawl4ai direct item =
        ⟨crawl4ai item, 1, 1⟩) ∧
    (isSuccessful (direct item) = true →
      processItem "direct" crawl4ai direct item = ⟨direct item, 1, 0⟩) ∧
    (isSuccessful (crawl4ai item) = false →
      processItem "crawl4ai" crawl4ai direct item =
        ⟨direct item, 1, 1⟩) ∧
    (isSuccessful (crawl4ai item) = true →
      processItem "crawl4ai" crawl4ai direct item = ⟨crawl4ai item, 0, 1⟩) := by
  refine ⟨fun h => ?_, fun h => ?_, fun h => ?_, fun h => ?_⟩
  all_goals simp [processItem, h]

/-- Claim C5, witness: a failing direct method falls back to crawl4ai, and
a successful crawl4ai result never calls the direct method. -/
theorem c5_witness :
    processItem "direct" (fun _ => c5OkResult) (fun _ => c5FailResult) [] =
      ⟨c5OkResult, 1, 1⟩ ∧
    processItem "crawl4ai" (fun _ => c5OkResult) (fun _ => c5FailResult) [] =
      ⟨c5OkResult, 0, 1⟩ :=
  ⟨(c5_fallback_behavior (fun _ => c5OkResult) (fun _ => c5FailResult) []).1
      rfl,
    (c5_fallback_behavior (fun _ => c5OkResult)
      (fun _ => c5FailResult) []).2.2.2 rfl⟩

/-! ## Claim C4: order preservation of the batch loop -/

theorem runBatches_length (st : String) (p : Dict → Dict)
    (fail : Nat → Option String) {b : Nat} (hb : 1 ≤ b) :
    ∀ (k : Nat) (l : List Dict),
      (runBatches st p fail b k l).length = l.length
  | k, [] => by simp [runBatches]
  | k, item :: rest => by
      have ih := runBatches_length st p fail hb (k + 1) (rest.drop (b - 1))
      simp only [runBatches]
      cases hf : fail k <;>
        simp [ih, List.length_take, List.length_drop] <;> omega
  termination_by k l => l.length
  decreasing_by simp [List.length_drop]; omega

theorem runBatches_getElem (st : String) (p : Dict → Dict)
    (fail : Nat → Option String) {b : Nat} (hb : 1 ≤ b) :
    ∀ (k : Nat) (l : List Dict) (i : Nat) (it : Dict), l[i]? = some it →
      (runBatches st p fail b k l)[i]? =
        some (match fail (k + i / b) with
          | some msg => batchErrorEntry st (k + i / b) msg it
          | none => p it)
  | k, [], i, it, h => by simp at h
  | k, item :: rest, i, it, h => by
      have hlen : i < rest.length + 1 := by
        by_contra hc
        rw [List.getElem?_eq_none (by simpa using hc)] at h
        exact Option.noConfusion h
      simp only [runBatches]
      by_cases hi : i < 1 + min (b - 1) rest.length
      · have hib : i < b := by omega
        have hdiv : i / b = 0 := Nat.div_eq_of_lt hib
        have hk2 : k + i / b = k := by rw [hdiv]; omega
        have hbatch : (item :: rest.take (b - 1))[i]? = some it := by
          have htk : item :: rest.take (b - 1) = (item :: rest).take b := by
            cases b with
            | zero => omega
            | succ n => simp [List.take_succ_cons]
          rw [htk, List.getElem?_take_of_lt hib, h]
        rw [hk2]
        cases hf : fail k with
        | some msg =>
            rw [List.getElem?_append_left (by
              simp only [List.length_map, List.length_cons, List.length_take]
              omega),
              List.getElem?_map, hbatch]
            rfl
        | none =>
            rw [List.getElem?_append_left (by
              simp only [List.length_map, List.length_cons, List.length_take]
              omega),
              List.getElem?_map, hbatch]
            rfl
      · have hrest : b - 1 ≤ rest.length := by omega
        have hib : b ≤ i := by omega
        have hmaplen : ∀ f : Dict → Dict,
            ((item :: rest.take (b - 1)).map f).length = b := by
          intro f
          simp [List.length_take]
          omega
        have hdrop : (rest.drop (b - 1))[i - b]? = some it := by
          rw [List.getElem?_drop]
          have harg : b - 1 + (i - b) = i - 1 := by omega
          rw [harg]
          obtain ⟨j, rfl⟩ : ∃ j, i = j + 1 := ⟨i - 1, by omega⟩
          simpa using h
        have ih := runBatches_getElem st p fail hb (k + 1)
          (rest.drop (b - 1)) (i - b) it hdrop
        have hdivarg : k + 1 + (i - b) / b = k + i / b := by
          rw [Nat.div_eq_sub_div (by omega) hib]
          omega
        cases hf : fail k with
        | some msg =>
            rw [List.getElem?_append_right (by rw [hmaplen]; omega),
              hmaplen, ih, hdivarg]
        | none =>
            rw [List.getElem?_append_right (by rw [hmaplen]; omega),
              hmaplen, ih, hdivarg]
  termination_by k l => l.length
  decreasing_by simp [List.length_drop]; omega

/-- Claim C4: for a non-empty input list and a supported method,
`execute_data_extraction` returns exactly one result per input item, and
the result at index `i` belongs to input item `i`: it is either that
item's `process_item` outcome or, when the item's whole batch raised, the
standardized batch error entry built from that same item's source URL —
for any batch size and any pattern of whole-batch failures. -/
theorem c4_order_preservation
    (schemaType extractionMethod : String) (crawl4ai direct : Dict → Dict)
    (failBatch : Nat → Option String) (b : Nat) (hb : 1 ≤ b)
    (input : List Dict) (hne : input ≠ [])
    (hmethod : extractionMethod = "direct" ∨ extractionMethod = "crawl4ai") :
    ∃ out : List Dict,
      executeDataExtraction schemaType extractionMethod
        (fun it => (processItem extractionMethod crawl4ai direct it).result)
        failBatch b input = .ok out ∧
      out.length = input.length ∧
      ∀ (i : Nat) (it : Dict), input[i]? = some it →
        out[i]? = some (match failBatch (1 + i / b) with
          | some msg => batchErrorEntry schemaType (1 + i / b) msg it
          | none => (processItem extractionMethod crawl4ai direct it).result) := by
  have hvalid : (extractionMethod != "direct" &&
      extractionMethod != "crawl4ai") = false := by
    rcases hmethod with h | h
    all_goals subst h
    all_goals rfl
  have hnonempty : input.isEmpty = false := by
    cases input with
    | nil => exact absurd rfl hne
    | cons a l => rfl
  refine ⟨runBatches schemaType
    (fun it => (processItem extractionMethod crawl4ai direct it).result)
    failBatch b 1 input, ?_, ?_, ?_⟩
  · unfold executeDataExtraction
    rw [hvalid, hnonempty]
    rfl
  · exact runBatches_length _ _ _ hb 1 input
  · intro i it h
    exact runBatches_getElem _ _ _ hb 1 input i it h

/-- Claim C4, witness: a three-item input with batch size 2 whose second
batch fails wholesale still yields three index-aligned results. -/
theorem c4_witness :
    ∃ out : List Dict,
      executeDataExtraction "website" "direct"
        (fun it => (processItem "direct" (fun _ => c5OkResult)
          (fun _ => c5FailResult) it).result)
        (fun n => if n = 2 then some "boom" else none) 2
        [[("http://a", .null)], [("http://b", .null)], [("http://c", .null)]] =
        .ok out ∧
      out.length = 3 ∧
      ∀ (i : Nat) (it : Dict),
        [[("http://a", (JValue.null))], [("http://b", .null)],
          [("http://c", .null)]][i]? = some it →
        out[i]? = some (match (if 1 + i / 2 = 2 then some "boom" else none :
            Option String) with
          | some msg => batchErrorEntry "website" (1 + i / 2) msg it
          | none => (processItem "direct" (fun _ => c5OkResult)
              (fun _ => c5FailResult) it).result) := by
  obtain ⟨out, h1, h2, h3⟩ := c4_order_preservation "website" "direct"
    (fun _ => c5OkResult) (fun _ => c5FailResult)
    (fun n => if n = 2 then some "boom" else none) 2 (by omega)
    [[("http://a", .null)], [("http://b", .null)], [("http://c", .null)]]
    (by simp) (Or.inl rfl)
  exact ⟨out, h1, by simpa using h2, h3⟩

/-! ## Claim C10: constructor validation -/

/-- Claim C10: the constructor raises `ValueError` exactly when the input
data list is empty, the extraction prompt strips to nothing, or the schema
type is neither website nor search; for every other input it succeeds. -/
theorem c10_constructor_validation (inputDataList : List Dict)
    (extractionPrompt schemaType : String) :
    (∃ e, initLLMDataExtractor inputDataList extractionPrompt schemaType =
      .error e) ↔
      (inputDataList = [] ∨ pyStrip extractionPrompt = "" ∨
        (schemaType ≠ "website" ∧ schemaType ≠ "search")) := by
  unfold initLLMDataExtractor
  by_cases h1 : inputDataList.isEmpty = true
  · rw [if_pos h1]
    simp only [List.isEmpty_iff] at h1
    simp [h1]
  · rw [if_neg h1]
    have h1' : ¬ inputDataList = [] := by
      simpa [List.isEmpty_iff] using h1
    by_cases h2 : (pyStrip extractionPrompt).isEmpty = true
    · rw [if_pos h2]
      simp only [String.isEmpty_iff] at h2
      simp [h1', h2]
    · rw [if_neg h2]
      have h2' : ¬ pyStrip extractionPrompt = "" := by
        simpa [String.isEmpty_iff] using h2
      by_cases h3 : (schemaType != "website" && schemaType != "search") = true
      · rw [if_pos h3]
        simp only [Bool.and_eq_true, bne_iff_ne] at h3
        simp [h1', h2', h3.1, h3.2]
      · rw [if_neg h3]
        have h3' : schemaType = "website" ∨ schemaType = "search" := by
          by_contra hc
          push_neg at hc
          exact h3 (by simp [Bool.and_eq_true, bne_iff_ne, hc.1, hc.2])
        simp only [h1', h2', false_or]
        constructor
        · rintro ⟨e, he⟩
          exact Except.noConfusion he
        · rintro ⟨ha, hb⟩
          rcases h3' with h | h
          · exact absurd h ha
          · exact absurd h hb

/-! ## Claim C7: cancel transitions only Pending jobs -/

theorem updateFirstPending_no_match (oid : Nat) :
    ∀ jobs : List JobDoc,
      (∀ j ∈ jobs, ¬ (j.oid = oid ∧ j.status = JobStatus.pending)) →
      updateFirstPendingToFailed oid jobs = (jobs, false)
  | [], _ => rfl
  | j :: rest, h => by
      have hj := h j (List.mem_cons_self _ _)
      have hrest := updateFirstPending_no_match oid rest
        (fun j' hm => h j' (List.mem_cons_of_mem _ hm))
      simp [updateFirstPendingToFailed, if_neg hj, hrest]

theorem updateFirstPending_found (oid : Nat) :
    ∀ (pre : List JobDoc) (j : JobDoc) (post : List JobDoc),
      (∀ j' ∈ pre, ¬ (j'.oid = oid ∧ j'.status = JobStatus.pending)) →
      j.oid = oid → j.status = JobStatus.pending →
      updateFirstPendingToFailed oid (pre ++ j :: post) =
        (pre ++ { j with
          status := JobStatus.failed
          error := some "Cancelled by user" } :: post, true)
  | [], j, post, _, hoid, hst => by
      simp [updateFirstPendingToFailed, if_pos (And.intro hoid hst)]
  | p :: pre, j, post, h, hoid, hst => by
      have hp := h p (List.mem_cons_self _ _)
      have hrest := updateFirstPending_found oid pre j post
        (fun j' hm => h j' (List.mem_cons_of_mem _ hm)) hoid hst
      simp [updateFirstPendingToFailed, if_neg hp, hrest]

/-- Claim C7: `DELETE /jobs/id` changes a job only when it is Pending —
the first Pending job with the requested id is marked Failed with the
cancellation error and the call succeeds; when no job with that id is
Pending (it is Running, Completed, Failed, or absent) the endpoint raises
404 and the collection is unchanged. -/
theorem c7_cancel_only_pending (jobs : List JobDoc) (oid : Nat) :
    ((∀ j ∈ jobs, j.oid = oid → j.status ≠ JobStatus.pending) →
      cancelJob jobs oid = (jobs, CancelResponse.notFound)) ∧
    (∀ pre j post, jobs = pre ++ j :: post → j.oid = oid →
      j.status = JobStatus.pending →
      (∀ j' ∈ pre, ¬ (j'.oid = oid ∧ j'.status = JobStatus.pending)) →
      cancelJob jobs oid =
        (pre ++ { j with
          status := JobStatus.failed
          error := some "Cancelled by user" } :: post,
          CancelResponse.cancelled)) := by
  constructor
  · intro h
    have hupd := updateFirstPending_no_match oid jobs
      (fun j hm hc => (h j hm hc.1) hc.2)
    simp [cancelJob, hupd]
  · intro pre j post hjobs hoid hst hpre
    subst hjobs
    have hupd := updateFirstPending_found oid pre j post hpre hoid hst
    simp [cancelJob, hupd]

/-- Claim C7, witness: cancelling a Running job id 1 returns 404 and
leaves the store unchanged; cancelling a Pending job id 1 behind a
Completed job id 2 fails exactly that job with the cancellation error. -/
theorem c7_witness :
    cancelJob [⟨1, JobStatus.running, none, []⟩] 1 =
      ([⟨1, JobStatus.running, none, []⟩], CancelResponse.notFound) ∧
    cancelJob [⟨2, JobStatus.completed, none, []⟩,
        ⟨1, JobStatus.pending, none, []⟩] 1 =
      ([⟨2, JobStatus.completed, none, []⟩,
        ⟨1, JobStatus.failed, some "Cancelled by user", []⟩],
        CancelResponse.cancelled) := by
  constructor
  · exact (c7_cancel_only_pending [⟨1, JobStatus.running, none, []⟩] 1).1
      (by
        intro j hm
        rw [List.mem_singleton] at hm
        subst hm
        intro _
        decide)
  · exact (c7_cancel_only_pending [⟨2, JobStatus.completed, none, []⟩,
        ⟨1, JobStatus.pending, none, []⟩] 1).2
      [⟨2, JobStatus.completed, none, []⟩] ⟨1, JobStatus.pending, none, []⟩ []
      rfl rfl rfl
      (by
        intro j' hm
        rw [List.mem_singleton] at hm
        subst hm
        rintro ⟨h1, h2⟩
        exact absurd h1 (by decide))

/-! ## Claim C8: the Pipeline chains deduplicated search URLs -/

theorem dedupFirstAux_nodup_aux : ∀ (seen l : List String),
    (dedupFirstAux seen l).Nodup ∧ ∀ x ∈ dedupFirstAux seen l, x ∉ seen
  | seen, [] => ⟨List.nodup_nil, by simp [dedupFirstAux]⟩
  | seen, x :: xs => by
      by_cases hx : x ∈ seen
      · simp only [dedupFirstAux, if_pos hx]
        exact dedupFirstAux_nodup_aux seen xs
      · simp only [dedupFirstAux, if_neg hx]
        obtain ⟨hnd, hmem⟩ := dedupFirstAux_nodup_aux (x :: seen) xs
        constructor
        · rw [List.nodup_cons]
          exact ⟨fun hmem2 => (hmem x hmem2) (List.mem_cons_self _ _), hnd⟩
        · intro y hy
          rcases List.mem_cons.mp hy with h1 | h1
          · subst h1
            exact hx
          · intro hys
            exact (hmem y h1) (List.mem_cons_of_mem _ hys)

theorem mem_dedupFirstAux : ∀ (seen l : List String) (x : String),
    x ∈ dedupFirstAux seen l ↔ (x ∈ l ∧ x ∉ seen)
  | seen, [], x => by simp [dedupFirstAux]
  | seen, y :: xs, x => by
      by_cases hy : y ∈ seen
      · simp only [dedupFirstAux, if_pos hy]
        rw [mem_dedupFirstAux seen xs x]
        constructor
        · rintro ⟨h1, h2⟩
          exact ⟨List.mem_cons_of_mem _ h1, h2⟩
        · rintro ⟨h1, h2⟩
          rcases List.mem_cons.mp h1 with h3 | h3
          · subst h3
            exact absurd hy h2
          · exact ⟨h3, h2⟩
      · simp only [dedupFirstAux, if_neg hy]
        rw [List.mem_cons, mem_dedupFirstAux (y :: seen) xs x]
        constructor
        · rintro (h1 | ⟨h1, h2⟩)
          · subst h1
            exact ⟨List.mem_cons_self _ _, hy⟩
          · exact ⟨List.mem_cons_of_mem _ h1,
              fun hs => h2 (List.mem_cons_of_mem _ hs)⟩
        · rintro ⟨h1, h2⟩
          by_cases hxy : x = y
          · exact Or.inl hxy
          · rcases List.mem_cons.mp h1 with h3 | h3
            · exact absurd h3 hxy
            · refine Or.inr ⟨h3, fun hs => ?_⟩
              rcases List.mem_cons.mp hs with h4 | h4
              · exact hxy h4
              · exact h2 h4

/-- Claim C8, counterexample: a Pipeline job whose search phase discovers
no URLs is marked Completed with the default success message, without the
scrape phase ever running — so a Pipeline job is not always completed with
the scrape phase's result. -/
theorem c8_counterexample :
    runPipelineWithSearch (fun _ => [])
      (fun _ => .obj [("entities_found", .num 5)]) ["restaurants"] =
      { status := JobStatus.completed,
        result := .obj [("message", .str "Job completed successfully")],
        scrapeCalls := [] } := rfl

/-- Claim C8, amended: for a Pipeline job whose search phase discovers at
least one URL, the runner chains the discovered URLs — deduplicated,
order-preserving and duplicate-free, covering exactly the discovered
set — as the single input url list of the website-scrape phase, and marks
the job Completed with the scrape phase's (truthy) result. -/
theorem c8_pipeline_chains_dedup_urls
    (searchOracle : List String → List String) (scrapePhase : JValue → JValue)
    (terms : List String)
    (hne : dedupFirst (searchOracle terms) ≠ [])
    (hscrape : truthy (scrapePhase
      (.arr ((dedupFirst (searchOracle terms)).map JValue.str))) = true) :
    runPipelineWithSearch searchOracle scrapePhase terms =
      { status := JobStatus.completed,
        result := scrapePhase
          (.arr ((dedupFirst (searchOracle terms)).map JValue.str)),
        scrapeCalls :=
          [.arr ((dedupFirst (searchOracle terms)).map JValue.str)] } ∧
    (dedupFirst (searchOracle terms)).Nodup ∧
    (∀ u, u ∈ dedupFirst (searchOracle terms) ↔ u ∈ searchOracle terms) := by
  refine ⟨?_, (dedupFirstAux_nodup_aux [] (searchOracle terms)).1, fun u => by
    rw [dedupFirst, mem_dedupFirstAux]
    simp⟩
  have hpy : pyGet [("urls",
      JValue.arr ((dedupFirst (searchOracle terms)).map JValue.str))] "urls" =
      JValue.arr ((dedupFirst (searchOracle terms)).map JValue.str) := by
    simp [pyGet, getKey]
  have htr : truthy
      (JValue.arr ((dedupFirst (searchOracle terms)).map JValue.str)) = true := by
    cases hmap : (dedupFirst (searchOracle terms)).map JValue.str with
    | nil => exact absurd (List.map_eq_nil_iff.mp hmap) hne
    | cons a l => simp [truthy]
  simp only [runPipelineWithSearch, runPipelineJob, processSearchTerms, hpy]
  rw [if_pos (by rw [htr]; rfl), if_pos hscrape]

/-- Claim C8, witness: the amended theorem at a search oracle discovering
a duplicated url list. -/
theorem c8_witness :
    runPipelineWithSearch (fun _ => ["http://a", "http://b", "http://a"])
      (fun urls => .obj [("scraped", urls)]) ["hotels"] =
      { status := JobStatus.completed,
        result := .obj [("scraped",
          .arr ((dedupFirst ["http://a", "http://b", "http://a"]).map
            JValue.str))],
        scrapeCalls :=
          [.arr ((dedupFirst ["http://a", "http://b", "http://a"]).map
            JValue.str)] } ∧
    (dedupFirst ["http://a", "http://b", "http://a"]).Nodup ∧
    (∀ u, u ∈ dedupFirst ["http://a", "http://b", "http://a"] ↔
      u ∈ ["http://a", "http://b", "http://a"]) :=
  c8_pipeline_chains_dedup_urls
    (fun _ => ["http://a", "http://b", "http://a"])
    (fun urls => .obj [("scraped", urls)]) ["hotels"]
    (by decide) rfl

/-! ## Claim C9: unparsable embedded JSON blocks -/

/-- Claim C9, counterexample: with blocks `["good", "bad"]` where only
`"good"` parses, the normalizer's structured output is just the parsed
object — the unparsable block's raw string `"bad"` is dropped, not
kept. -/
theorem c9_counterexample :
    jsonScriptsOutput id c9Parse ["good", "bad"] = [JValue.obj []] ∧
    JValue.str "bad" ∉ jsonScriptsOutput id c9Parse ["good", "bad"] := by
  constructor
  · rfl
  · intro hmem
    rw [show jsonScriptsOutput id c9Parse ["good", "bad"] = [JValue.obj []]
      from rfl] at hmem
    rw [List.mem_singleton] at hmem
    exact JValue.noConfusion hmem

/-- Claim C9, amended: `parse_json_scripts` keeps exactly the blocks that
clean to something non-empty and parse, in order, dropping the rest; the
normalizer's `json_scripts` output is that parsed list — every raw script
string (parsable or not) is kept instead only when no block parsed at
all. -/
theorem c9_script_blocks (clean : String → String)
    (parseJson : String → Option JValue) (raws : List String) :
    parseJsonScripts clean parseJson raws =
      ((raws.map clean).filter (fun c => !(c == ""))).filterMap parseJson ∧
    (parseJsonScripts clean parseJson raws ≠ [] →
      jsonScriptsOutput clean parseJson raws =
        parseJsonScripts clean parseJson raws) ∧
    (parseJsonScripts clean parseJson raws = [] →
      jsonScriptsOutput clean parseJson raws = raws.map JValue.str) := by
  refine ⟨?_, ?_, ?_⟩
  · induction raws with
    | nil => rfl
    | cons raw rest ih =>
        simp only [parseJsonScripts, List.map_cons, List.filter_cons]
        by_cases hc : clean raw = ""
        · rw [if_pos hc]
          simp [hc, ih]
        · rw [if_neg hc]
          cases hp : parseJson (clean raw) with
          | some j => simp [hc, hp, ih]
          | none => simp [hc, hp, ih]
  · intro h
    unfold jsonScriptsOutput
    rw [if_neg (by simpa [List.isEmpty_iff] using h)]
  · intro h
    unfold jsonScriptsOutput
    rw [if_pos (by simpa [List.isEmpty_iff] using h)]

/-- Claim C9, witness: the amended characterization at a parsable block
and at an unparsable one. -/
theorem c9_witness :
    jsonScriptsOutput id c9Parse ["good"] =
      parseJsonScripts id c9Parse ["good"] ∧
    jsonScriptsOutput id c9Parse ["nope"] = ["nope"].map JValue.str :=
  ⟨(c9_script_blocks id c9Parse ["good"]).2.1
      (by simp [parseJsonScripts, c9Parse, id]),
    (c9_script_blocks id c9Parse ["nope"]).2.2
      (by simp [parseJsonScripts, c9Parse, id])⟩

end UIScraper
